import Mathlib

/-!
Verification of the ARR-calculator repository against its specification.

The TypeScript source is shallowly embedded below.  Conventions:

* JavaScript `Date` values are modelled by the record `JSDate` holding the
  local calendar components (`getFullYear`/`getMonth`/`getDate`/…).  The JS
  `Date(year, month, day, …)` constructor normalizes out-of-range month and
  day arguments; `mkDate` reproduces that normalization (months by floored
  division, days by borrowing/carrying whole months, with a fuel bound far
  above every argument the program ever passes).  JS compares dates by their
  millisecond timestamp; on normalized components the timestamp order is
  exactly the lexicographic order of
  `(year, month, day, hour, minute, second, ms)`, which `lexKey` encodes as a
  single integer (base 32 for days — legal days are 1..31 — and real radices
  for the time fields), so `lexKey a ≤ lexKey b` mirrors JS `a <= b` and
  `lexKey a = lexKey b` mirrors `a.getTime() === b.getTime()`.
* JS numbers are modelled as exact rationals (`ℚ`); `Math.round` is
  `jsRound` (round half toward +∞, the JS semantics).  The one place where a
  claim in fact hinges on sub-ulp IEEE-754 behaviour — the Stripe duration
  annualization — is modelled bit-faithfully with an explicit
  round-to-nearest-even double rounding (`roundDouble`, `fpMul`, `fpDiv`).
* Raw record properties (HubSpot line-item property bags) are modelled with
  `Option` fields: `none` is an absent/undefined property; numeric fields
  hold the numeric value JS `Number(...)` would produce, date fields hold the
  raw string.
-/

/-! ## JavaScript local-time `Date` model -/

structure JSDate where
  year : Int
  month : Int
  day : Int
  hour : Int
  minute : Int
  second : Int
  ms : Int
deriving DecidableEq, Repr

/-- Gregorian leap-year rule (the rule `new Date` uses for local dates). -/
def isLeapYear (y : Int) : Bool :=
  (y % 4 == 0 && y % 100 != 0) || y % 400 == 0

/-- Number of days of month `m` (0-based, January = 0) of year `y`. -/
def daysInMonth (y m : Int) : Int :=
  if m = 0 then 31
  else if m = 1 then (if isLeapYear y then 29 else 28)
  else if m = 2 then 31
  else if m = 3 then 30
  else if m = 4 then 31
  else if m = 5 then 30
  else if m = 6 then 31
  else if m = 7 then 31
  else if m = 8 then 30
  else if m = 9 then 31
  else if m = 10 then 30
  else 31

/-- Normalize a day component by borrowing from / carrying into adjacent
months, as the JS `Date` constructor does.  `fuel` bounds the recursion; it
is always chosen far larger than the number of months any argument in this
program can overflow by. -/
def normDay : Nat → Int → Int → Int → Int × Int × Int
  | 0, y, m, d => (y, m, d)
  | fuel + 1, y, m, d =>
    if d < 1 then
      let y' := if m = 0 then y - 1 else y
      let m' := if m = 0 then 11 else m - 1
      normDay fuel y' m' (d + daysInMonth y' m')
    else if daysInMonth y m < d then
      let y' := if m = 11 then y + 1 else y
      let m' := if m = 11 then 0 else m + 1
      normDay fuel y' m' (d - daysInMonth y m)
    else (y, m, d)

/-- `new Date(year, month, day, hour, minute, second, ms)` with the month and
day normalization JS performs.  Time components are passed through: the
program only ever supplies in-range time-of-day arguments (0 or
23:59:59.999). -/
def mkDate7 (y mo d h mi s ms : Int) : JSDate :=
  let t := normDay 400 (y + mo / 12) (mo % 12) d
  ⟨t.1, t.2.1, t.2.2, h, mi, s, ms⟩

/-- `new Date(year, month, day)`. -/
def mkDate (y mo d : Int) : JSDate := mkDate7 y mo d 0 0 0 0

/-- Injective order-embedding of normalized dates into `ℤ` that agrees with
the millisecond-timestamp order JS uses for `<`, `<=` and `getTime()`
comparisons (days fit in base 32, every other component in its real radix). -/
def lexKey (d : JSDate) : Int :=
  ((((((d.year * 12 + d.month) * 32 + d.day) * 24 + d.hour) * 60 + d.minute)
      * 60 + d.second) * 1000 + d.ms)

/-- JS `a <= b` on `Date`s (timestamp comparison). -/
def jsLe (a b : JSDate) : Bool := lexKey a ≤ lexKey b

/-- JS `a < b` on `Date`s (timestamp comparison). -/
def jsLt (a b : JSDate) : Bool := lexKey a < lexKey b

/-- JS `a.getTime() === b.getTime()` (used by the report for month-equality
tests). -/
def jsEq (a b : JSDate) : Bool := lexKey a == lexKey b

/-- The date has in-range calendar components, as every date constructed by
the normalizing JS constructor (and hence every date in this program) does. -/
def isNormDate (d : JSDate) : Prop :=
  0 ≤ d.month ∧ d.month ≤ 11 ∧
  1 ≤ d.day ∧ d.day ≤ daysInMonth d.year d.month ∧
  0 ≤ d.hour ∧ d.hour ≤ 23 ∧
  0 ≤ d.minute ∧ d.minute ≤ 59 ∧
  0 ≤ d.second ∧ d.second ≤ 59 ∧
  0 ≤ d.ms ∧ d.ms ≤ 999

instance (d : JSDate) : Decidable (isNormDate d) := by
  simp only [isNormDate]; infer_instance

/-- Absolute month index `year * 12 + month`; chronological on normalized
dates up to the day/time components. -/
def monthIdx (d : JSDate) : Int := d.year * 12 + d.month

theorem daysInMonth_bounds (y m : Int) :
    28 ≤ daysInMonth y m ∧ daysInMonth y m ≤ 31 := by
  unfold daysInMonth
  split <;> omega

/-! ## `lib/logic.ts` -/

/-- `round2` from `lib/logic.ts`: `Math.round(n * 100) / 100`.  `jsRound` is
JS `Math.round`: round half toward `+∞`. -/
def jsRound (q : ℚ) : Int := ⌊q + 1 / 2⌋

def round2 (n : ℚ) : ℚ := (jsRound (n * 100) : ℚ) / 100

/-- `toNumber` from `lib/logic.ts`: `Number(v)` with `NaN ↦ 0`.  A field
modelled as `none` (absent or unparseable) coerces to `NaN`, hence to 0. -/
def toNumber (v : Option ℚ) : ℚ := v.getD 0

/-- `firstOfMonth` from `lib/logic.ts`: `new Date(y, m, 1)`. -/
def firstOfMonth (d : JSDate) : JSDate := mkDate d.year d.month 1

/-- `endOfMonth` from `lib/logic.ts`: `new Date(y, m + 1, 0)` — day 0
normalizes to the last day of month `m`, at local midnight. -/
def endOfMonth (d : JSDate) : JSDate := mkDate d.year (d.month + 1) 0

/-- `addMonths` from `lib/logic.ts`: `new Date(y, m + n, 1)`. -/
def addMonths (d : JSDate) (n : Int) : JSDate := mkDate d.year (d.month + n) 1

/-! Decimal printing of integers, as JS template literals do
(`${d.getFullYear()}` etc.). -/

def digitChar (n : Nat) : Char := Char.ofNat (48 + n % 10)

def natDigitsAux : Nat → Nat → List Char
  | 0, _ => []
  | fuel + 1, n =>
    if n < 10 then [digitChar n]
    else natDigitsAux fuel (n / 10) ++ [digitChar (n % 10)]

def natDigits (n : Nat) : List Char := natDigitsAux (n + 1) n

/-- JS `String(i)` for an integer-valued number. -/
def intChars (i : Int) : List Char :=
  if i < 0 then '-' :: natDigits (-i).toNat else natDigits i.toNat

/-- JS `String(n).padStart(2, "0")` at the character-list level. -/
def pad2 (l : List Char) : List Char := if l.length < 2 then '0' :: l else l

/-- `formatPeriodKeyMonthly` from `lib/logic.ts`:
`` `${y}-${String(m + 1).padStart(2, "0")}` ``. -/
def formatPeriodKeyMonthly (d : JSDate) : String :=
  ⟨intChars d.year ++ '-' :: pad2 (intChars (d.month + 1))⟩

/-- `formatPeriodLabelMonthly` from `lib/logic.ts`: `"Jan 25"`-style label
(month name and last two digits of the year). -/
def formatPeriodLabelMonthly (d : JSDate) : String :=
  let name := ["Jan", "Feb", "Mar", "Apr", "May", "Jun",
               "Jul", "Aug", "Sep", "Oct", "Nov", "Dec"].getD d.month.toNat ""
  let ys := intChars d.year
  name ++ " " ++ ⟨ys.drop (ys.length - 2)⟩

/-! `parseDate` from `lib/logic.ts`.  The source handles three shapes:
epoch-second/millisecond digit strings, bare `YYYY-MM-DD` strings (parsed as
*local* midnight — the fix the file's doc comment describes), and a fallback
`new Date(s)`.  HubSpot date properties are date-only strings (per that same
comment), and every date string in the claims is date-only, so the embedding
models the `YYYY-MM-DD` branch exactly and maps the two other branches
(which no modelled input reaches) to `none`. -/

def isDigitChar (c : Char) : Bool := 48 ≤ c.toNat && c.toNat ≤ 57

def digitVal (c : Char) : Int := (c.toNat : Int) - 48

/-- JS `String.prototype.trim` for the ASCII whitespace that can occur in
these fields, at the character-list level (kernel-reducible, unlike the
built-in `String.trim`). -/
def isWsChar (c : Char) : Bool := c == ' ' || c == '\t' || c == '\n' || c == '\r'

def trimChars (l : List Char) : List Char :=
  ((l.dropWhile isWsChar).reverse.dropWhile isWsChar).reverse

def jsTrim (s : String) : String := ⟨trimChars s.toList⟩

def parseDateChars : List Char → Option JSDate
  | [y1, y2, y3, y4, '-', m1, m2, '-', d1, d2] =>
    if isDigitChar y1 && isDigitChar y2 && isDigitChar y3 && isDigitChar y4 &&
       isDigitChar m1 && isDigitChar m2 && isDigitChar d1 && isDigitChar d2 then
      let y := ((digitVal y1 * 10 + digitVal y2) * 10 + digitVal y3) * 10 + digitVal y4
      let mo := digitVal m1 * 10 + digitVal m2
      let d := digitVal d1 * 10 + digitVal d2
      some (mkDate y (mo - 1) d)
    else none
  | _ => none

def parseDate (v : Option String) : Option JSDate :=
  match v with
  | none => none
  | some raw =>
    if raw = "" then none  -- `if (!v) return null` (empty string is falsy)
    else parseDateChars (trimChars raw.toList)

/-- The line-item property bag (`HubspotLineItemProps` of `lib/types.ts`),
restricted to the properties the logic reads. -/
structure LineItemProps where
  hs_recurring_billing_start_date : Option String := none
  hs_recurring_billing_end_date : Option String := none
  hs_billing_period_start_date : Option String := none
  hs_billing_period_end_date : Option String := none
  hs_term_in_months : Option ℚ := none
  amount : Option ℚ := none
  net_price : Option ℚ := none
  recurringbillingfrequency : Option String := none
deriving DecidableEq, Repr

structure BillingWindow where
  start : JSDate
  «end» : JSDate
  endIsOpenEnded : Bool
deriving DecidableEq, Repr

/-- JS `ToInteger` truncation applied by the `Date` constructor to a
fractional month offset. -/
def jsTruncInt (q : ℚ) : Int := if q < 0 then ⌈q⌉ else ⌊q⌋

/-- `computeWindowForLineItem` from `lib/logic.ts`. -/
def computeWindowForLineItem (p : LineItemProps) : Option BillingWindow :=
  match (parseDate p.hs_recurring_billing_start_date).orElse
      (fun _ => parseDate p.hs_billing_period_start_date) with
  | none => none
  | some start =>
    match (parseDate p.hs_recurring_billing_end_date).orElse
        (fun _ => parseDate p.hs_billing_period_end_date) with
    | some e => some ⟨start, e, false⟩
    | none =>
      if toNumber p.hs_term_in_months ≠ 0 then
        some ⟨start,
          mkDate start.year
            (start.month + jsTruncInt (toNumber p.hs_term_in_months))
            (start.day - 1), false⟩
      else
        some ⟨start, mkDate 2100 0 1, true⟩

/-- `isOneTimeLineItem` from `lib/logic.ts`: no derivable window, or an
open-ended one. -/
def isOneTimeLineItem (p : LineItemProps) : Bool :=
  match computeWindowForLineItem p with
  | none => true
  | some w => w.endIsOpenEnded

/-! String helpers for `frequencyMultiplier` (JS `trim`, `toLowerCase`,
`includes`). -/

def hasSubstrList (hay needle : List Char) : Bool :=
  if needle.isPrefixOf hay then true
  else
    match hay with
    | [] => false
    | _ :: t => hasSubstrList t needle

/-- JS `s.includes(sub)`. -/
def jsIncludes (s sub : String) : Bool := hasSubstrList s.toList sub.toList

/-- JS `s.toLowerCase()` (ASCII, which covers the frequency labels). -/
def jsToLower (s : String) : String := ⟨s.toList.map Char.toLower⟩

/-- `frequencyMultiplier` from `lib/logic.ts`. -/
def frequencyMultiplier (freqRaw : Option String) : ℚ :=
  let freq := jsToLower (jsTrim (freqRaw.getD ""))
  if jsIncludes freq "one" then 0
  else if freq == "per_six_months" || (jsIncludes freq "six" && jsIncludes freq "month") then 2
  else if freq == "per_quarter" || jsIncludes freq "quarter" ||
      (jsIncludes freq "three" && jsIncludes freq "month") then 4
  else if jsIncludes freq "semi" || jsIncludes freq "half" then 2
  else if jsIncludes freq "month" then 12
  else if jsIncludes freq "year" || jsIncludes freq "annual" then 1
  else 0

/-- `computeCalculatedArrForLineItem` from `lib/logic.ts`. -/
def computeCalculatedArrForLineItem (p : LineItemProps) : ℚ :=
  if isOneTimeLineItem p then 0
  else
    let base0 := toNumber p.amount
    let base := if base0 = 0 then toNumber p.net_price else base0
    if base = 0 then 0
    else
      let mult := frequencyMultiplier p.recurringbillingfrequency
      if mult = 0 then 0
      else round2 (base * mult)

/-- Monthly report period (`{ key, label, start, end }` of `lib/logic.ts`). -/
structure Period where
  key : String
  label : String
  start : JSDate
  «end» : JSDate
deriving DecidableEq, Repr

def mkMonthlyPeriod (fm : JSDate) : Period :=
  { key := formatPeriodKeyMonthly fm
    label := formatPeriodLabelMonthly fm
    start := fm
    «end» := endOfMonth fm }

/-- Loop body of `buildMonthlyPeriods`; the fuel bounds the number of
iterations (`m` advances one month per step, so the month gap + 1 suffices). -/
def buildMonthlyPeriodsGo (endMonth : JSDate) : Nat → JSDate → List Period
  | 0, _ => []
  | fuel + 1, m =>
    if jsLe m endMonth then
      mkMonthlyPeriod (firstOfMonth m) :: buildMonthlyPeriodsGo endMonth fuel (addMonths m 1)
    else []

/-- `buildMonthlyPeriods` from `lib/logic.ts`. -/
def buildMonthlyPeriods (startMonth endMonth : JSDate) : List Period :=
  buildMonthlyPeriodsGo endMonth
    ((monthIdx endMonth - monthIdx startMonth).toNat + 1) startMonth

inductive Grain | daily | monthly | quarterly | annually
deriving DecidableEq, Repr

inductive ReportMode | arr | contracted
deriving DecidableEq, Repr

/-! ## `lib/report.ts` — per-line-item period attribution -/

/-- `formatDayKey` from `lib/report.ts`. -/
def formatDayKey (d : JSDate) : String :=
  ⟨intChars d.year ++ '-' :: pad2 (intChars (d.month + 1)) ++
    '-' :: pad2 (intChars d.day)⟩

/-- A line item as returned by the batch read: an id with its property bag
(`HubspotLineItem`).  A missing entry of the id map behaves as an empty
property bag (`li?.properties || {}`). -/
def propsFor (lineItemsById : List (String × LineItemProps)) (liId : String) :
    LineItemProps :=
  ((lineItemsById.lookup liId).getD {})

/-- One iteration of the scan of `findEarliestNonOneTimeLineItemStart`:
skip one-time items, items with non-positive computed ARR and items without
a parseable window start; keep the strictly earliest start (first
encountered wins ties: the incumbent is kept unless strictly beaten). -/
def findEarliestStep (lineItemsById : List (String × LineItemProps))
    (best : Option (String × JSDate)) (liId : String) : Option (String × JSDate) :=
  if isOneTimeLineItem (propsFor lineItemsById liId) then best
  else if computeCalculatedArrForLineItem (propsFor lineItemsById liId) ≤ 0 then best
  else
    match computeWindowForLineItem (propsFor lineItemsById liId) with
    | none => best
    | some w =>
      match best with
      | none => some (liId, w.start)
      | some b => if jsLt w.start b.2 then some (liId, w.start) else best

/-- `findEarliestNonOneTimeLineItemStart` from `lib/report.ts`. -/
def findEarliestNonOneTimeLineItemStart
    (liIds : List String) (lineItemsById : List (String × LineItemProps)) :
    Option (String × JSDate) :=
  liIds.foldl (findEarliestStep lineItemsById) none

/-- The FX-converted annualized value of a line item
(`fx.rate && liArr ? round2(liArr * fx.rate) : 0` in `generateReport`). -/
def liArrFxOf (fxRate : ℚ) (p : LineItemProps) : ℚ :=
  let liArr := computeCalculatedArrForLineItem p
  if fxRate ≠ 0 ∧ liArr ≠ 0 then round2 (liArr * fxRate) else 0

/-- The deal-level inputs of the per-line-item loop of `generateReport`:
deal type classification, close date, and the earliest-recurring pick
(computed only in contracted mode). -/
structure DealCtx where
  isExistingBusiness : Bool
  closeDate : Option JSDate
  earliest : Option (String × JSDate)
deriving Repr

/-- `closeMonth` of the deal meta: `closeDate ? firstOfMonth(closeDate) : null`. -/
def closeMonthOf (ctx : DealCtx) : Option JSDate := ctx.closeDate.map firstOfMonth

/-- `allowCarry` of `generateReport` (lines 229–235): contracted mode,
not existing-business, close date and an earliest recurring start both
present, and the close date strictly before that start. -/
def allowCarry (mode : ReportMode) (ctx : DealCtx) : Bool :=
  decide (mode = ReportMode.contracted) && !ctx.isExistingBusiness &&
  ctx.closeDate.isSome && (closeMonthOf ctx).isSome &&
  (match ctx.closeDate, ctx.earliest with
   | some cd, some e => jsLt cd e.2
   | _, _ => false)

/-- The value `generateReport` assigns to one monthly period for one line
item (`valuesMonthly[mp.key]`, lines 245–283 of `lib/report.ts`). -/
def monthlyValue (mode : ReportMode) (ctx : DealCtx) (fxRate : ℚ)
    (liId : String) (p : LineItemProps) (mp : Period) : ℚ :=
  let w? := computeWindowForLineItem p
  let liArrFx := liArrFxOf fxRate p
  match w? with
  | none => 0
  | some w =>
    if liArrFx = 0 then 0
    else
      let monthEnd := mp.«end»
      let coversMonthEnd := jsLe w.start monthEnd && jsLe monthEnd w.«end»
      if mode = ReportMode.arr then (if coversMonthEnd then liArrFx else 0)
      else if ctx.isExistingBusiness then (if coversMonthEnd then liArrFx else 0)
      else
        let isEarliestRecurring :=
          match ctx.earliest with
          | some e => liId == e.1
          | none => false
        if !isEarliestRecurring then (if coversMonthEnd then liArrFx else 0)
        else
          let isCloseMonth :=
            match closeMonthOf ctx with
            | some cm => jsEq mp.start cm
            | none => false
          let inCarryRange :=
            allowCarry mode ctx &&
            (match closeMonthOf ctx, ctx.earliest with
             | some cm, some e =>
               jsLe cm mp.start && jsLe mp.start (firstOfMonth e.2)
             | _, _ => false)
          if isCloseMonth || inCarryRange || coversMonthEnd then liArrFx else 0

/-- Daily report period (`{ key, label, day }` built by `buildDailyPeriods`
of `lib/report.ts`). -/
structure DayPeriod where
  key : String
  day : JSDate
deriving DecidableEq, Repr

/-- The value `generateReport` assigns to one daily period for one line item
(`valuesByPeriod[dp.key]` in the daily branch, lines 294–337 of
`lib/report.ts`).  The source tests `mode === "arr"` and then
`mode === "contracted"` and assigns plain window coverage in both; the
existing-business / earliest-recurring / carry code that follows in the
source is unreachable, because `ReportMode` has no third value. -/
def dailyValue (mode : ReportMode) (ctx : DealCtx) (fxRate : ℚ)
    (liId : String) (p : LineItemProps) (dp : DayPeriod) : ℚ :=
  let w? := computeWindowForLineItem p
  let liArrFx := liArrFxOf fxRate p
  let dayPoint := dp.day
  let coversDay :=
    match w? with
    | none => false
    | some w => liArrFx ≠ 0 && jsLe w.start dayPoint && jsLe dayPoint w.«end»
  if mode = ReportMode.arr then (if coversDay then liArrFx else 0)
  else if mode = ReportMode.contracted then (if coversDay then liArrFx else 0)
  else 0  -- unreachable: `ReportMode` is exhausted by the two tests above

/-! ## `aggregatePeriodsFromMonthly` from `lib/logic.ts`

A JS `Map` built by "append to the bucket of this key, creating the bucket
at the back on first sight" is modelled as an association list with exactly
that update (`jsGroupUpd`/`jsGroupBy`); `Array.from(map.entries())`
enumerates buckets in first-insertion order, which the association list
preserves.  `Array.prototype.sort` with a total comparator is modelled by a
stable insertion sort (`jsSortBy`); only the order of the *groups* depends
on it, and no claim constrains that order. -/

def jsGroupUpd {κ α : Type} [DecidableEq κ] (k : κ) (p : α) :
    List (κ × List α) → List (κ × List α)
  | [] => [(k, [p])]
  | (k', ps) :: rest =>
    if k' = k then (k', ps ++ [p]) :: rest else (k', ps) :: jsGroupUpd k p rest

def jsGroupBy {κ α : Type} [DecidableEq κ] (f : α → κ) (l : List α) :
    List (κ × List α) :=
  l.foldl (fun acc p => jsGroupUpd (f p) p acc) []

def jsInsertBy {α : Type} (le : α → α → Bool) (a : α) : List α → List α
  | [] => [a]
  | b :: t => if le a b then a :: b :: t else b :: jsInsertBy le a t

def jsSortBy {α : Type} (le : α → α → Bool) : List α → List α
  | [] => []
  | a :: t => jsInsertBy le a (jsSortBy le t)

/-- String comparison backing `localeCompare` for the pure-ASCII period keys
(code-point lexicographic order). -/
def strLe (a b : String) : Bool := decide (a ≤ b)

/-- Aggregated period (`{ key, label, start, end, members }`); for the
`monthly` grain the source returns the monthly periods unchanged, which the
model renders as `members := none`. -/
structure AggPeriod where
  key : String
  label : String
  start : JSDate
  «end» : JSDate
  members : Option (List String)
deriving DecidableEq, Repr

def defaultPeriod : Period := ⟨"", "", ⟨0,0,1,0,0,0,0⟩, ⟨0,0,1,0,0,0,0⟩⟩

/-- Turn one sorted bucket into an aggregated period (`months[0].start`,
`months[months.length - 1].end`, `members: months.map(m => m.key)`). -/
def bucketToAgg (k : String) (months : List Period) : AggPeriod :=
  { key := k
    label := k
    start := (months.headD defaultPeriod).start
    «end» := (months.getLastD defaultPeriod).«end»
    members := some (months.map (·.key)) }

/-- Quarter key `` `${y}-Q${Math.floor(m / 3) + 1}` `` of a monthly period. -/
def quarterKeyOf (p : Period) : String :=
  ⟨intChars p.start.year ++ '-' :: 'Q' :: intChars (p.start.month / 3 + 1)⟩

/-- Year key of a monthly period (the `Map<number, …>` key; the output key is
`String(y)`). -/
def yearKeyOf (p : Period) : Int := p.start.year

/-- `aggregatePeriodsFromMonthly` from `lib/logic.ts`. -/
def aggregatePeriodsFromMonthly (monthlyPeriods : List Period) (grain : Grain) :
    List AggPeriod :=
  match grain with
  | Grain.monthly | Grain.daily =>
    -- `monthly` returns the input unchanged; `daily` never reaches this
    -- function's grouping (the report uses daily periods instead).
    monthlyPeriods.map (fun p => ⟨p.key, p.label, p.start, p.«end», none⟩)
  | Grain.annually =>
    (jsSortBy (fun a b => a.1 ≤ b.1) (jsGroupBy yearKeyOf monthlyPeriods)).map
      (fun e => bucketToAgg ⟨intChars e.1⟩ e.2)
  | Grain.quarterly =>
    (jsSortBy (fun a b => strLe a.1 b.1) (jsGroupBy quarterKeyOf monthlyPeriods)).map
      (fun e => bucketToAgg e.1 e.2)

/-! ## IEEE-754 double model (for the Stripe duration annualization)

Claim-relevant values of `annualizedAmountFromPeriod` sit within half an ulp
of a rounding boundary of `round2`, so this one computation is modelled
bit-faithfully: every arithmetic result is rounded to the nearest binary64
value (53-bit significand, ties to even).  All magnitudes involved are far
inside the normal range, so overflow and subnormals need no modelling. -/

/-- `q * 2 ^ k` for an integer (possibly negative) exponent. -/
def mulPow2 (q : ℚ) (k : Int) : ℚ :=
  if 0 ≤ k then q * ((2 ^ k.toNat : ℕ) : ℚ) else q / ((2 ^ (-k).toNat : ℕ) : ℚ)

/-- `⌊log₂ q⌋` for `q > 0`: a bit-length estimate corrected by at most one. -/
def floorLog2Pos (q : ℚ) : Int :=
  let e0 : Int := (Nat.log2 q.num.toNat : Int) - (Nat.log2 q.den : Int)
  if mulPow2 1 (e0 + 1) ≤ q then e0 + 1
  else if q < mulPow2 1 e0 then e0 - 1
  else e0

/-- Round an exact rational to the nearest binary64 double (round to
nearest, ties to even), ignoring overflow/subnormal ranges. -/
def roundDouble (q : ℚ) : ℚ :=
  if q = 0 then 0
  else
    let aq := |q|
    let scale := floorLog2Pos aq - 52
    let m := mulPow2 aq (-scale)
    let n := ⌊m⌋
    let frac := m - n
    let n' := if 1 / 2 < frac then n + 1
      else if frac < 1 / 2 then n
      else if n % 2 = 0 then n else n + 1
    (if q < 0 then -1 else 1) * mulPow2 (n' : ℚ) scale

/-- Double multiplication: exact product, then one rounding. -/
def fpMul (a b : ℚ) : ℚ := roundDouble (a * b)

/-- Double division: exact quotient, then one rounding. -/
def fpDiv (a b : ℚ) : ℚ := roundDouble (a / b)

/-- The binary64 value of the literal `365.2425`. -/
def fp365_2425 : ℚ := roundDouble (3652425 / 10000)

/-- The binary64 value of the expression `1 / 24`. -/
def fp1Over24 : ℚ := fpDiv 1 24

/-- `round2` as executed on doubles: `Math.round(n * 100) / 100` with the
multiplication and the division each rounded to binary64 (`Math.round` of an
in-range double is exact). -/
def round2Fp (n : ℚ) : ℚ := fpDiv ((jsRound (fpMul n 100) : ℚ)) 100

/-- `annualizedAmountFromPeriod` from the Stripe report module
(`src/unnamed/part_002`, lines 56–61).  The two `Date` arguments enter only
through `getTime()`, so the model takes the millisecond timestamps directly;
timestamps are integers below `2^53`, hence exact doubles, and their
difference is exact. -/
def annualizedAmountFromPeriod (amountMajor : ℚ) (startTs endExclusiveTs : Int) : ℚ :=
  let durationMs : Int := endExclusiveTs - startTs
  if durationMs ≤ 0 then 0
  else
    let durationDays := fpDiv (durationMs : ℚ) ((24 * 60 * 60 * 1000 : Int) : ℚ)
    round2Fp (fpDiv (fpMul amountMajor fp365_2425) (max durationDays fp1Over24))

/-! ## Stripe synchronization cache (`src/unnamed/part_002`, richer variant)

`ensureStripeSyncForRange` runs inside the single-writer lock; one invocation
is modelled as a pure step function from the persisted store (plus the
request, the clock value, and the batch the fetcher would return) to the
persisted store after the call, together with the returned outcome and the
number of external fetch calls performed. -/

structure SyncedStripeLineItem where
  key : String
  invoiceId : String
  invoiceCreatedTs : Int
  customerId : String
  customerName : String
  lineItemId : String
  lineItemDescription : String
  amountMinor : ℚ
  currency : String
  quantity : ℚ
  periodStartTs : Int
  periodEndTs : Int
deriving DecidableEq, Repr

structure StripeSyncStore where
  updatedAtTs : Int
  lastSyncStartTs : Int
  lastSyncEndTs : Int
  activeRangeStartTs : Int
  activeRangeEndTs : Int
  nextInvoiceCursor : Option String
  rangeExhausted : Bool
  itemsByKey : List (String × SyncedStripeLineItem)
deriving DecidableEq, Repr

/-- Raw invoice line period from the ledger API (`line.period`). -/
structure RawLinePeriod where
  start : Option Int
  «end» : Option Int
deriving DecidableEq, Repr

structure RawInvoiceLine where
  id : Option String
  description : Option String
  amount : Option ℚ
  quantity : Option ℚ
  period : Option RawLinePeriod
deriving DecidableEq, Repr

structure RawInvoiceWithLines where
  invoiceId : Option String
  invoiceCreated : Option Int
  invoiceCurrency : Option String
  customerId : Option String
  customerName : Option String
  lineItems : List RawInvoiceLine
deriving DecidableEq, Repr

/-- One page returned by `listInvoiceBatchWithLineItems`. -/
structure InvoiceBatch where
  invoicesWithLines : List RawInvoiceWithLines
  fetchedInvoices : Nat
  hasMore : Bool
  nextStartingAfter : Option String
deriving DecidableEq, Repr

/-- JS object property assignment `itemsByKey[key] = v`: replace in place, or
append on first sight (JS objects preserve first-insertion key order). -/
def recUpsert (k : String) (v : SyncedStripeLineItem) :
    List (String × SyncedStripeLineItem) → List (String × SyncedStripeLineItem)
  | [] => [(k, v)]
  | (k', v') :: t => if k' = k then (k, v) :: t else (k', v') :: recUpsert k v t

/-- The merge loop of the refresh branch (lines 501–531 of the sync store):
normalize each returned line and upsert it under `invoiceId:lineItemId`,
skipping lines without positive period bounds or without an id. -/
def mergeInvoiceLines (invoices : List RawInvoiceWithLines)
    (items0 : List (String × SyncedStripeLineItem)) :
    List (String × SyncedStripeLineItem) :=
  invoices.foldl
    (fun acc inv =>
      let invoiceCreatedTs := (inv.invoiceCreated.getD 0) * 1000
      let invoiceId := inv.invoiceId.getD ""
      let currency := jsToLower (jsTrim (inv.invoiceCurrency.getD ""))
      inv.lineItems.foldl
        (fun acc line =>
          let periodStartTs := ((line.period.bind (·.start)).getD 0) * 1000
          let periodEndTs := ((line.period.bind (·.«end»)).getD 0) * 1000 - 1
          if ¬(periodStartTs > 0) ∨ ¬(periodEndTs > 0) then acc
          else
            let lineItemId := jsTrim (line.id.getD "")
            if lineItemId = "" then acc
            else
              let key := invoiceId ++ ":" ++ lineItemId
              recUpsert key
                { key := key
                  invoiceId := invoiceId
                  invoiceCreatedTs := invoiceCreatedTs
                  customerId := inv.customerId.getD ""
                  customerName := inv.customerName.getD ""
                  lineItemId := lineItemId
                  lineItemDescription := line.description.getD ""
                  amountMinor := line.amount.getD 0
                  currency := currency
                  quantity := line.quantity.getD 1
                  periodStartTs := periodStartTs
                  periodEndTs := periodEndTs } acc)
        acc)
    items0

/-- Outcome of one `ensureStripeSyncForRange` invocation: the store that is
persisted when the call returns, the returned flags, and how many external
ledger fetches the call performed. -/
structure SyncOutcome where
  store : StripeSyncStore
  synced : Bool
  reason : String
  syncedInvoices : Nat
  fetchCalls : Nat
deriving Repr

/-- `STRIPE_SYNC_MAX_HISTORY_DAYS` default (800 days, in ms). -/
def maxHistoryMs : Int := 800 * 24 * 60 * 60 * 1000

/-- `STRIPE_SYNC_FRESHNESS_MS` default. -/
def syncFreshnessMs : Int := 900000

/-- `clampHistoryStartTs`. -/
def clampHistoryStartTs (now ts : Int) : Int := max ts (now - maxHistoryMs)

/-- `ensureStripeSyncForRange` (lines 449–555 of `src/unnamed/part_002`),
with the request range already parsed to `[startTs, endTs]` (`parseRange`)
and the would-be fetch result passed as `batch`.  The two `nowTs()` reads of
one invocation are modelled by the single instant `now`. -/
def ensureStripeSyncForRange (now : Int) (store : StripeSyncStore)
    (startTs endTs : Int) (force : Bool) (batch : InvoiceBatch) : SyncOutcome :=
  let clampedStartTs := clampHistoryStartTs now startTs
  let sameActiveRange :=
    store.activeRangeStartTs = clampedStartTs ∧ store.activeRangeEndTs = endTs
  let nextStore : StripeSyncStore :=
    { store with
      activeRangeStartTs := if sameActiveRange then store.activeRangeStartTs else clampedStartTs
      activeRangeEndTs := if sameActiveRange then store.activeRangeEndTs else endTs
      nextInvoiceCursor := if sameActiveRange then store.nextInvoiceCursor else none
      rangeExhausted := if sameActiveRange then store.rangeExhausted else false }
  let coversRequestedRange :=
    nextStore.rangeExhausted = true ∧
    nextStore.activeRangeStartTs > 0 ∧ nextStore.activeRangeEndTs > 0 ∧
    nextStore.activeRangeStartTs ≤ clampedStartTs ∧ nextStore.activeRangeEndTs ≥ endTs
  if ¬force ∧ coversRequestedRange then
    -- early return: nothing persisted, the durable store stays as it was
    { store := store, synced := false, reason := "range-covered"
      syncedInvoices := 0, fetchCalls := 0 }
  else
    let isFresh := ¬force ∧ now - nextStore.updatedAtTs ≤ syncFreshnessMs
    if isFresh ∧ nextStore.rangeExhausted = true then
      { store := store, synced := false, reason := "fresh-cache"
        syncedInvoices := 0, fetchCalls := 0 }
    else
      let merged := mergeInvoiceLines batch.invoicesWithLines nextStore.itemsByKey
      let exhausted := !batch.hasMore
      let final : StripeSyncStore :=
        { nextStore with
          updatedAtTs := now
          itemsByKey := merged
          nextInvoiceCursor := if batch.hasMore then batch.nextStartingAfter else none
          rangeExhausted := exhausted
          lastSyncStartTs :=
            if exhausted then
              (if nextStore.lastSyncStartTs > 0 then
                min nextStore.lastSyncStartTs nextStore.activeRangeStartTs
              else nextStore.activeRangeStartTs)
            else nextStore.lastSyncStartTs
          lastSyncEndTs :=
            if exhausted then max nextStore.lastSyncEndTs nextStore.activeRangeEndTs
            else nextStore.lastSyncEndTs }
      { store := final, synced := true, reason := "refreshed"
        syncedInvoices := batch.fetchedInvoices, fetchCalls := 1 }

/-- `overlaps` of the sync store. -/
def rangesOverlap (periodStartTs periodEndTs rangeStartTs rangeEndTs : Int) : Bool :=
  periodStartTs ≤ rangeEndTs && periodEndTs ≥ rangeStartTs

/-- `getSyncedStripeLineItemsForRange`: every stored item whose period
intersects the requested range, in store order. -/
def getSyncedStripeLineItemsForRange (store : StripeSyncStore)
    (startTs endTs : Int) : List SyncedStripeLineItem :=
  (store.itemsByKey.map (·.2)).filter
    (fun it => rangesOverlap it.periodStartTs it.periodEndTs startTs endTs)

/-- The coverage predicate of the cache itself (the `coversRequestedRange`
test of `ensureStripeSyncForRange`, on the unmodified store). -/
def storeCoversRange (store : StripeSyncStore) (clampedStartTs endTs : Int) : Prop :=
  store.rangeExhausted = true ∧
  store.activeRangeStartTs > 0 ∧ store.activeRangeEndTs > 0 ∧
  store.activeRangeStartTs ≤ clampedStartTs ∧ store.activeRangeEndTs ≥ endTs

instance (s : StripeSyncStore) (a b : Int) : Decidable (storeCoversRange s a b) := by
  simp only [storeCoversRange]; infer_instance

/-- The sync-triggering decision of `generateStripeReport`
(`src/unnamed/part_002`, lines 91–100): read the cached items for the range;
call `ensureStripeSyncForRange` (exactly once, followed by a re-read) only
when that read produced no items *and* `STRIPE_REPORT_AUTO_SYNC` is enabled.
Returns the number of `ensureStripeSyncForRange` calls the report performs. -/
def generateStripeReportSyncCalls (store : StripeSyncStore)
    (startTs endTs : Int) (autoSync : Bool) : Nat :=
  let syncedItems := getSyncedStripeLineItemsForRange store startTs endTs
  if syncedItems.length = 0 ∧ autoSync = true then 1 else 0

/-! ## Calendar lemmas -/

theorem normDay_eq_self (fuel : Nat) (y m d : Int)
    (h1 : 1 ≤ d) (h2 : d ≤ daysInMonth y m) :
    normDay fuel y m d = (y, m, d) := by
  cases fuel with
  | zero => rfl
  | succ n =>
    rw [normDay]
    rw [if_neg (by omega), if_neg (by omega)]

theorem normDay_zero (fuel : Nat) (y m : Int) :
    normDay (fuel + 1) y m 0 =
      ((if m = 0 then y - 1 else y), (if m = 0 then 11 else m - 1),
        daysInMonth (if m = 0 then y - 1 else y) (if m = 0 then 11 else m - 1)) := by
  rw [normDay, if_pos (by omega)]
  have hb := daysInMonth_bounds (if m = 0 then y - 1 else y) (if m = 0 then 11 else m - 1)
  rw [normDay_eq_self _ _ _ _ (by omega) (by omega), zero_add]

/-- `new Date(y, mo, 1)` in closed form: day 1 is always in range. -/
theorem mkDate_day1 (y mo : Int) :
    mkDate y mo 1 = ⟨y + mo / 12, mo % 12, 1, 0, 0, 0, 0⟩ := by
  rw [mkDate, mkDate7]
  have hb := daysInMonth_bounds (y + mo / 12) (mo % 12)
  rw [normDay_eq_self _ _ _ _ (by omega) (by omega)]

theorem firstOfMonth_eq (d : JSDate) (h : 0 ≤ d.month ∧ d.month ≤ 11) :
    firstOfMonth d = ⟨d.year, d.month, 1, 0, 0, 0, 0⟩ := by
  rw [firstOfMonth, mkDate_day1]
  have h1 : d.month / 12 = 0 := by omega
  have h2 : d.month % 12 = d.month := by omega
  rw [h1, h2, add_zero]

theorem addMonths_one (d : JSDate) (h : 0 ≤ d.month ∧ d.month ≤ 11) :
    addMonths d 1 =
      (if d.month = 11 then (⟨d.year + 1, 0, 1, 0, 0, 0, 0⟩ : JSDate)
       else ⟨d.year, d.month + 1, 1, 0, 0, 0, 0⟩) := by
  rw [addMonths, mkDate_day1]
  by_cases h11 : d.month = 11
  · rw [if_pos h11]
    have h1 : (d.month + 1) / 12 = 1 := by omega
    have h2 : (d.month + 1) % 12 = 0 := by omega
    rw [h1, h2]
  · rw [if_neg h11]
    have h1 : (d.month + 1) / 12 = 0 := by omega
    have h2 : (d.month + 1) % 12 = d.month + 1 := by omega
    rw [h1, h2, add_zero]

theorem endOfMonth_eq (d : JSDate) (h : 0 ≤ d.month ∧ d.month ≤ 11) :
    endOfMonth d = ⟨d.year, d.month, daysInMonth d.year d.month, 0, 0, 0, 0⟩ := by
  rw [endOfMonth, mkDate, mkDate7]
  by_cases h11 : d.month = 11
  · have h1 : (d.month + 1) / 12 = 1 := by omega
    have h2 : (d.month + 1) % 12 = 0 := by omega
    rw [h1, h2, show (400 : Nat) = 399 + 1 from rfl, normDay_zero]
    simp [h11]
  · have h1 : (d.month + 1) / 12 = 0 := by omega
    have h2 : (d.month + 1) % 12 = d.month + 1 := by omega
    rw [h1, h2, add_zero, show (400 : Nat) = 399 + 1 from rfl, normDay_zero]
    have hc : ¬(d.month + 1 = 0) := by omega
    simp only [if_neg hc]
    simp [show d.month + 1 - 1 = d.month from by ring]

/-! ## Characterization of `buildMonthlyPeriods` -/

/-- The first-of-month date of absolute month index `n`. -/
def monthOfIdx (n : Int) : JSDate := ⟨n / 12, n % 12, 1, 0, 0, 0, 0⟩

/-- The monthly period of absolute month index `n`. -/
def monthlyPeriodOfIdx (n : Int) : Period := mkMonthlyPeriod (monthOfIdx n)

theorem isNormDate_monthOfIdx (n : Int) : isNormDate (monthOfIdx n) := by
  have hb := daysInMonth_bounds (n / 12) (n % 12)
  simp only [isNormDate, monthOfIdx]
  omega

theorem monthIdx_monthOfIdx (n : Int) : monthIdx (monthOfIdx n) = n := by
  simp only [monthIdx, monthOfIdx]
  omega

theorem firstOfMonth_eq_monthOfIdx (d : JSDate) (hd : isNormDate d) :
    firstOfMonth d = monthOfIdx (monthIdx d) := by
  obtain ⟨h1, h2, _⟩ := hd
  rw [firstOfMonth_eq d ⟨h1, h2⟩]
  simp only [monthOfIdx, monthIdx, JSDate.mk.injEq, and_true, true_and]
  omega

theorem addMonths_eq_monthOfIdx (d : JSDate) (hd : isNormDate d) :
    addMonths d 1 = monthOfIdx (monthIdx d + 1) := by
  obtain ⟨h1, h2, _⟩ := hd
  rw [addMonths_one d ⟨h1, h2⟩]
  by_cases h11 : d.month = 11
  · rw [if_pos h11]
    simp only [monthOfIdx, monthIdx, JSDate.mk.injEq, and_true, true_and]
    omega
  · rw [if_neg h11]
    simp only [monthOfIdx, monthIdx, JSDate.mk.injEq, and_true, true_and]
    omega

/-- For a first-of-month date, the JS instant order against any normalized
date is the month-index order. -/
theorem jsLe_monthOfIdx_iff (n : Int) (e : JSDate) (he : isNormDate e) :
    jsLe (monthOfIdx n) e = true ↔ n ≤ monthIdx e := by
  obtain ⟨h1, h2, h3, h4, h5, h6, h7, h8, h9, h10, h11, h12⟩ := he
  have hb := daysInMonth_bounds e.year e.month
  simp only [jsLe, lexKey, monthOfIdx, monthIdx, decide_eq_true_eq]
  omega

/-- `m <= endMonth` forces the month indexes to be ordered, for normalized
dates. -/
theorem monthIdx_le_of_jsLe (m e : JSDate) (hm : isNormDate m) (he : isNormDate e)
    (h : jsLe m e = true) : monthIdx m ≤ monthIdx e := by
  obtain ⟨a1, a2, a3, a4, a5, a6, a7, a8, a9, a10, a11, a12⟩ := hm
  obtain ⟨b1, b2, b3, b4, b5, b6, b7, b8, b9, b10, b11, b12⟩ := he
  have hbm := daysInMonth_bounds m.year m.month
  have hbe := daysInMonth_bounds e.year e.month
  simp only [jsLe, lexKey, decide_eq_true_eq] at h
  simp only [monthIdx]
  omega

theorem buildMonthlyPeriodsGo_nil (endMonth : JSDate) (fuel : Nat) (m : JSDate)
    (h : ¬(jsLe m endMonth = true)) :
    buildMonthlyPeriodsGo endMonth fuel m = [] := by
  cases fuel with
  | zero => rfl
  | succ n => rw [buildMonthlyPeriodsGo, if_neg h]

theorem map_monthRange_succ (base : Int) (n : Nat) :
    List.map (fun i : Nat => monthlyPeriodOfIdx (base + (i : Int))) (List.range (n + 1)) =
      monthlyPeriodOfIdx base ::
        List.map (fun i : Nat => monthlyPeriodOfIdx (base + 1 + (i : Int))) (List.range n) := by
  rw [List.range_succ_eq_map]
  simp only [List.map_cons, Nat.cast_zero, add_zero, List.map_map]
  congr 1
  apply List.map_congr_left
  intro i _
  simp only [Function.comp_apply, Nat.succ_eq_add_one]
  congr 1
  push_cast
  ring

theorem buildMonthlyPeriodsGo_spec (endMonth : JSDate) (he : isNormDate endMonth) :
    ∀ (fuel : Nat) (m : JSDate), isNormDate m → jsLe m endMonth = true →
    (monthIdx endMonth - monthIdx m).toNat + 1 ≤ fuel →
    buildMonthlyPeriodsGo endMonth fuel m =
      (List.range ((monthIdx endMonth - monthIdx m).toNat + 1)).map
        (fun i : Nat => monthlyPeriodOfIdx (monthIdx m + (i : Int))) := by
  intro fuel
  induction fuel with
  | zero => intro m _ _ hf; omega
  | succ fuel ih =>
    intro m hm hle hf
    rw [buildMonthlyPeriodsGo, if_pos hle]
    have hidx : monthIdx m ≤ monthIdx endMonth := monthIdx_le_of_jsLe m endMonth hm he hle
    have hm' : addMonths m 1 = monthOfIdx (monthIdx m + 1) := addMonths_eq_monthOfIdx m hm
    have hhead : mkMonthlyPeriod (firstOfMonth m) = monthlyPeriodOfIdx (monthIdx m) := by
      rw [monthlyPeriodOfIdx, firstOfMonth_eq_monthOfIdx m hm]
    by_cases hlast : monthIdx m = monthIdx endMonth
    · have hno : ¬(jsLe (addMonths m 1) endMonth = true) := by
        rw [hm', jsLe_monthOfIdx_iff _ _ he]
        omega
      rw [buildMonthlyPeriodsGo_nil endMonth fuel _ hno]
      have hg : (monthIdx endMonth - monthIdx m).toNat = 0 := by omega
      rw [hg, map_monthRange_succ (monthIdx m) 0, hhead]
      simp only [List.range_zero, List.map_nil]
    · have hyes : jsLe (addMonths m 1) endMonth = true := by
        rw [hm', jsLe_monthOfIdx_iff _ _ he]
        omega
      have hnorm' : isNormDate (addMonths m 1) := by
        rw [hm']; exact isNormDate_monthOfIdx _
      have hidx' : monthIdx (addMonths m 1) = monthIdx m + 1 := by
        rw [hm', monthIdx_monthOfIdx]
      have hrec := ih (addMonths m 1) hnorm' hyes (by rw [hidx']; omega)
      rw [hrec, hidx']
      have hg : (monthIdx endMonth - monthIdx m).toNat
          = ((monthIdx endMonth - (monthIdx m + 1)).toNat) + 1 := by omega
      rw [hg, map_monthRange_succ (monthIdx m)
        ((monthIdx endMonth - (monthIdx m + 1)).toNat + 1), hhead]

/-- `buildMonthlyPeriods s e` is exactly one period per calendar month from
`s`'s month through `e`'s month, in chronological order. -/
theorem buildMonthlyPeriods_spec (s e : JSDate) (hs : isNormDate s) (he : isNormDate e)
    (hle : jsLe s e = true) :
    buildMonthlyPeriods s e =
      (List.range ((monthIdx e - monthIdx s).toNat + 1)).map
        (fun i : Nat => monthlyPeriodOfIdx (monthIdx s + (i : Int))) := by
  rw [buildMonthlyPeriods]
  exact buildMonthlyPeriodsGo_spec e he _ s hs hle (le_refl _)

/-! ## Claim C3 -/

/-- C3, counterexample: for January 2025, `buildMonthlyPeriods` produces the
period ending at `2025-01-31T00:00:00.000` local (the `endOfMonth` of the
source is `new Date(y, m + 1, 0)`, which carries time-of-day zero), not at
`2025-01-31T23:59:59.999` as the claim states. -/
theorem C3_counterexample :
    (buildMonthlyPeriods ⟨2025, 0, 1, 0, 0, 0, 0⟩ ⟨2025, 0, 1, 0, 0, 0, 0⟩).map
        (fun p => p.«end») = [⟨2025, 0, 31, 0, 0, 0, 0⟩] ∧
    (⟨2025, 0, 31, 0, 0, 0, 0⟩ : JSDate) ≠ ⟨2025, 0, 31, 23, 59, 59, 999⟩ := by
  constructor
  · rfl
  · decide

/-- C3, amended: for every pair of normalized months `startMonth ≤ endMonth`,
`buildMonthlyPeriods` produces exactly one period per calendar month from
`startMonth`'s month through `endMonth`'s month inclusive, in chronological
order; each period's start is the first day of the month at local midnight
and each period's end is the last day of that month **at local midnight
00:00:00.000** (not 23:59:59.999). -/
theorem C3_amended_thm (s e : JSDate) (hs : isNormDate s) (he : isNormDate e)
    (hle : jsLe s e = true) :
    buildMonthlyPeriods s e =
      (List.range ((monthIdx e - monthIdx s).toNat + 1)).map
        (fun i : Nat => monthlyPeriodOfIdx (monthIdx s + (i : Int))) ∧
    ∀ n : Int,
      (monthlyPeriodOfIdx n).start = ⟨n / 12, n % 12, 1, 0, 0, 0, 0⟩ ∧
      (monthlyPeriodOfIdx n).«end» =
        ⟨n / 12, n % 12, daysInMonth (n / 12) (n % 12), 0, 0, 0, 0⟩ := by
  refine ⟨buildMonthlyPeriods_spec s e hs he hle, fun n => ⟨rfl, ?_⟩⟩
  have hn := isNormDate_monthOfIdx n
  obtain ⟨h1, h2, _⟩ := hn
  show endOfMonth (monthOfIdx n) = _
  rw [endOfMonth_eq _ ⟨h1, h2⟩]
  rfl

/-- C3 witness: the amended theorem applied to the concrete months
2025-01-15 .. 2025-03-10 (three periods: 2025-01, 2025-02, 2025-03). -/
theorem C3_witness :
    isNormDate ⟨2025, 0, 15, 0, 0, 0, 0⟩ ∧ isNormDate ⟨2025, 2, 10, 0, 0, 0, 0⟩ ∧
    jsLe ⟨2025, 0, 15, 0, 0, 0, 0⟩ ⟨2025, 2, 10, 0, 0, 0, 0⟩ = true ∧
    (buildMonthlyPeriods ⟨2025, 0, 15, 0, 0, 0, 0⟩ ⟨2025, 2, 10, 0, 0, 0, 0⟩ =
      [monthlyPeriodOfIdx 24300, monthlyPeriodOfIdx 24301, monthlyPeriodOfIdx 24302]) := by
  refine ⟨by decide, by decide, by decide, ?_⟩
  have h := (C3_amended_thm ⟨2025, 0, 15, 0, 0, 0, 0⟩ ⟨2025, 2, 10, 0, 0, 0, 0⟩
    (by decide) (by decide) (by decide)).1
  rw [h]
  rfl

/-! ## Decimal-string injectivity (for monthly-key distinctness) -/

def digitsVal (l : List Char) : Nat :=
  l.foldl (fun acc c => acc * 10 + (c.toNat - 48)) 0

theorem digitsVal_append_one (l : List Char) (c : Char) :
    digitsVal (l ++ [c]) = digitsVal l * 10 + (c.toNat - 48) := by
  simp [digitsVal, List.foldl_append]

theorem digitChar_toNat (d : Nat) (h : d < 10) : (digitChar d).toNat = 48 + d := by
  interval_cases d <;> decide

theorem natDigitsAux_fuel (n : Nat) : ∀ fuel : Nat, n < fuel → natDigitsAux fuel n = natDigits n := by
  induction n using Nat.strong_induction_on with
  | _ n ih =>
    intro fuel hf
    cases fuel with
    | zero => omega
    | succ f =>
      by_cases h : n < 10
      · rw [natDigitsAux, if_pos h, natDigits, natDigitsAux, if_pos h]
      · rw [natDigitsAux, if_neg h, natDigits, natDigitsAux, if_neg h]
        have hlt : n / 10 < n := Nat.div_lt_self (by omega) (by omega)
        rw [ih (n / 10) hlt f (by omega), ih (n / 10) hlt n (by omega)]

theorem natDigits_eq (n : Nat) :
    natDigits n =
      if n < 10 then [digitChar n] else natDigits (n / 10) ++ [digitChar (n % 10)] := by
  by_cases h : n < 10
  · rw [natDigits, natDigitsAux, if_pos h, if_pos h]
  · rw [natDigits, natDigitsAux, if_neg h, if_neg h,
      natDigitsAux_fuel (n / 10) n (Nat.div_lt_self (by omega) (by omega))]

theorem digitsVal_natDigits (n : Nat) : digitsVal (natDigits n) = n := by
  induction n using Nat.strong_induction_on with
  | _ n ih =>
    rw [natDigits_eq]
    by_cases h : n < 10
    · rw [if_pos h]
      simp [digitsVal, digitChar_toNat n h]
    · rw [if_neg h]
      rw [digitsVal_append_one, ih (n / 10) (Nat.div_lt_self (by omega) (by omega)),
        digitChar_toNat (n % 10) (Nat.mod_lt _ (by omega))]
      omega

theorem natDigits_inj (a b : Nat) (h : natDigits a = natDigits b) : a = b := by
  have := digitsVal_natDigits a
  rw [h, digitsVal_natDigits] at this
  omega

theorem natDigits_ne_nil (n : Nat) : natDigits n ≠ [] := by
  rw [natDigits_eq]
  by_cases h : n < 10
  · rw [if_pos h]; simp
  · rw [if_neg h]; simp

theorem natDigits_head_digit (n : Nat) :
    ∀ c ∈ natDigits n, 48 ≤ c.toNat ∧ c.toNat ≤ 57 := by
  induction n using Nat.strong_induction_on with
  | _ n ih =>
    rw [natDigits_eq]
    by_cases h : n < 10
    · rw [if_pos h]
      intro c hc
      simp only [List.mem_singleton] at hc
      subst hc
      rw [digitChar_toNat n h]
      omega
    · rw [if_neg h]
      intro c hc
      rcases List.mem_append.mp hc with h1 | h2
      · exact ih (n / 10) (Nat.div_lt_self (by omega) (by omega)) c h1
      · simp only [List.mem_singleton] at h2
        subst h2
        rw [digitChar_toNat (n % 10) (Nat.mod_lt _ (by omega))]
        omega

theorem intChars_inj (a b : Int) (h : intChars a = intChars b) : a = b := by
  unfold intChars at h
  by_cases ha : a < 0 <;> by_cases hb : b < 0
  · rw [if_pos ha, if_pos hb] at h
    have h2 := congrArg List.tail h
    simp only [List.tail_cons] at h2
    have := natDigits_inj _ _ h2
    omega
  · rw [if_pos ha, if_neg hb] at h
    exfalso
    have hhead : ('-' : Char) ∈ natDigits b.toNat := by
      rw [← h]; exact List.mem_cons_self _ _
    have := natDigits_head_digit b.toNat '-' hhead
    simp at this
  · rw [if_neg ha, if_pos hb] at h
    exfalso
    have hhead : ('-' : Char) ∈ natDigits a.toNat := by
      rw [h]; exact List.mem_cons_self _ _
    have := natDigits_head_digit a.toNat '-' hhead
    simp at this
  · rw [if_neg ha, if_neg hb] at h
    have := natDigits_inj _ _ h
    omega

theorem pad2_intChars_length (a : Int) (ha1 : 1 ≤ a) (ha2 : a ≤ 12) :
    (pad2 (intChars a)).length = 2 := by
  interval_cases a <;> decide

theorem pad2_intChars_inj (a b : Int) (ha1 : 1 ≤ a) (ha2 : a ≤ 12)
    (hb1 : 1 ≤ b) (hb2 : b ≤ 12) (h : pad2 (intChars a) = pad2 (intChars b)) :
    a = b := by
  interval_cases a <;> interval_cases b <;> first | rfl | (exact absurd h (by decide))

theorem monthlyPeriodOfIdx_key (n : Int) :
    (monthlyPeriodOfIdx n).key = ⟨intChars (n / 12) ++ '-' :: pad2 (intChars (n % 12 + 1))⟩ :=
  rfl

/-- Monthly period keys are distinct for distinct months. -/
theorem monthKey_inj (n m : Int)
    (h : (monthlyPeriodOfIdx n).key = (monthlyPeriodOfIdx m).key) : n = m := by
  rw [monthlyPeriodOfIdx_key, monthlyPeriodOfIdx_key] at h
  replace h : intChars (n / 12) ++ '-' :: pad2 (intChars (n % 12 + 1)) =
      intChars (m / 12) ++ '-' :: pad2 (intChars (m % 12 + 1)) :=
    congrArg String.data h
  have hn2 : (pad2 (intChars (n % 12 + 1))).length = 2 :=
    pad2_intChars_length _ (by omega) (by omega)
  have hm2 : (pad2 (intChars (m % 12 + 1))).length = 2 :=
    pad2_intChars_length _ (by omega) (by omega)
  rw [← List.singleton_append, ← List.singleton_append] at h
  have hlen : (intChars (n / 12)).length = (intChars (m / 12)).length := by
    have := congrArg List.length h
    simp only [List.length_append, List.length_singleton, List.length_cons,
      List.length_nil, hn2, hm2] at this
    omega
  obtain ⟨hyear, hrest⟩ := List.append_inj h hlen
  have hpad : pad2 (intChars (n % 12 + 1)) = pad2 (intChars (m % 12 + 1)) := by
    have := congrArg List.tail hrest
    simpa using this
  have h1 := intChars_inj _ _ hyear
  have h2 := pad2_intChars_inj _ _ (by omega) (by omega) (by omega) (by omega) hpad
  omega

/-! ## Properties of `jsGroupBy` and `jsSortBy` -/

theorem jsInsertBy_perm {α : Type} (le : α → α → Bool) (a : α) (l : List α) :
    (jsInsertBy le a l).Perm (a :: l) := by
  induction l with
  | nil => exact List.Perm.refl _
  | cons b t ih =>
    rw [jsInsertBy]
    by_cases h : le a b = true
    · rw [if_pos h]
    · rw [if_neg h]
      exact ((ih.cons b).trans (List.Perm.swap a b t))

theorem jsSortBy_perm {α : Type} (le : α → α → Bool) (l : List α) :
    (jsSortBy le l).Perm l := by
  induction l with
  | nil => exact List.Perm.refl _
  | cons a t ih =>
    rw [jsSortBy]
    exact (jsInsertBy_perm le a (jsSortBy le t)).trans (ih.cons a)

def joinVals {κ α : Type} (acc : List (κ × List α)) : List α :=
  (acc.map Prod.snd).join

def keysOf {κ α : Type} (acc : List (κ × List α)) : List κ :=
  acc.map Prod.fst

theorem jsGroupUpd_joinVals {κ α : Type} [DecidableEq κ] (k : κ) (p : α)
    (acc : List (κ × List α)) :
    (joinVals (jsGroupUpd k p acc)).Perm (joinVals acc ++ [p]) := by
  induction acc with
  | nil => simp [jsGroupUpd, joinVals]
  | cons e t ih =>
    obtain ⟨k', ps⟩ := e
    rw [jsGroupUpd]
    by_cases h : k' = k
    · rw [if_pos h]
      show ((ps ++ [p]) ++ joinVals t).Perm ((ps ++ joinVals t) ++ [p])
      simp only [List.append_assoc]
      exact List.Perm.append_left ps List.perm_append_comm
    · rw [if_neg h]
      show (ps ++ joinVals (jsGroupUpd k p t)).Perm ((ps ++ joinVals t) ++ [p])
      simp only [List.append_assoc]
      exact List.Perm.append_left ps ih

theorem jsGroupBy_foldl_joinVals {κ α : Type} [DecidableEq κ] (f : α → κ) :
    ∀ (l : List α) (acc : List (κ × List α)),
    (joinVals (l.foldl (fun acc p => jsGroupUpd (f p) p acc) acc)).Perm
      (joinVals acc ++ l) := by
  intro l
  induction l with
  | nil => intro acc; simp
  | cons a t ih =>
    intro acc
    rw [List.foldl_cons]
    refine (ih (jsGroupUpd (f a) a acc)).trans ?_
    have h1 := jsGroupUpd_joinVals (f a) a acc
    have he : joinVals acc ++ (a :: t) = (joinVals acc ++ [a]) ++ t := by simp
    rw [he]
    exact h1.append_right t

/-- All the values distributed into buckets are a permutation of the input. -/
theorem jsGroupBy_joinVals {κ α : Type} [DecidableEq κ] (f : α → κ) (l : List α) :
    (joinVals (jsGroupBy f l)).Perm l := by
  have := jsGroupBy_foldl_joinVals f l []
  simpa [joinVals] using this

def bucketOf {κ α : Type} [DecidableEq κ] (k : κ) : List (κ × List α) → List α
  | [] => []
  | (k', ps) :: t => if k' = k then ps else bucketOf k t

theorem jsGroupUpd_bucketOf {κ α : Type} [DecidableEq κ] (k k' : κ) (p : α)
    (acc : List (κ × List α)) :
    bucketOf k' (jsGroupUpd k p acc) =
      if k' = k then bucketOf k acc ++ [p] else bucketOf k' acc := by
  induction acc with
  | nil =>
    by_cases h : k' = k
    · subst h; simp [jsGroupUpd, bucketOf]
    · have h' : ¬(k = k') := fun he => h he.symm
      simp [jsGroupUpd, bucketOf, h, h']
  | cons e t ih =>
    obtain ⟨k0, ps⟩ := e
    rw [jsGroupUpd]
    by_cases h0 : k0 = k
    · subst h0
      by_cases h : k' = k0
      · subst h; simp [bucketOf]
      · have h' : ¬(k0 = k') := fun he => h he.symm
        simp [bucketOf, h, h']
    · rw [if_neg h0]
      by_cases h : k' = k
      · subst h
        have h0' : ¬(k0 = k') := h0
        simp [bucketOf, h0', ih]
      · by_cases h2 : k0 = k'
        · subst h2
          simp [bucketOf, ih, h]
        · simp [bucketOf, h2, ih, h]

theorem jsGroupBy_foldl_bucketOf {κ α : Type} [DecidableEq κ] (f : α → κ) :
    ∀ (l : List α) (acc : List (κ × List α)) (k : κ),
    bucketOf k (l.foldl (fun acc p => jsGroupUpd (f p) p acc) acc) =
      bucketOf k acc ++ l.filter (fun a => decide (f a = k)) := by
  intro l
  induction l with
  | nil => intro acc k; simp
  | cons a t ih =>
    intro acc k
    rw [List.foldl_cons, ih, jsGroupUpd_bucketOf]
    by_cases h : f a = k
    · rw [if_pos (by rw [h]), List.filter_cons, if_pos (by simpa using h), h]
      simp
    · have h' : ¬(k = f a) := fun hk => h hk.symm
      rw [if_neg h', List.filter_cons, if_neg (by simpa using h)]

/-- Each bucket of `jsGroupBy f l` is the (order-preserving) selection of the
elements of `l` mapping to its key. -/
theorem jsGroupBy_bucketOf {κ α : Type} [DecidableEq κ] (f : α → κ) (l : List α) (k : κ) :
    bucketOf k (jsGroupBy f l) = l.filter (fun a => decide (f a = k)) := by
  have := jsGroupBy_foldl_bucketOf f l [] k
  simpa [jsGroupBy, bucketOf] using this

theorem jsGroupUpd_keysOf {κ α : Type} [DecidableEq κ] (k : κ) (p : α)
    (acc : List (κ × List α)) :
    keysOf (jsGroupUpd k p acc) =
      if k ∈ keysOf acc then keysOf acc else keysOf acc ++ [k] := by
  induction acc with
  | nil => simp [jsGroupUpd, keysOf]
  | cons e t ih =>
    obtain ⟨k0, ps⟩ := e
    rw [jsGroupUpd]
    by_cases h0 : k0 = k
    · subst h0
      simp [keysOf]
    · rw [if_neg h0]
      show k0 :: keysOf (jsGroupUpd k p t) = _
      rw [ih]
      by_cases h : k ∈ keysOf t
      · have hmem : k ∈ keysOf ((k0, ps) :: t) := by
          rw [keysOf, List.map_cons]
          exact List.mem_cons_of_mem _ h
        rw [if_pos h, if_pos hmem]
        rfl
      · rw [if_neg h, if_neg (by
          simp only [keysOf, List.map_cons, List.mem_cons]
          push_neg
          exact ⟨fun hk => h0 hk.symm, by simpa [keysOf] using h⟩)]
        rfl

theorem jsGroupBy_keysOf_nodup {κ α : Type} [DecidableEq κ] (f : α → κ) (l : List α) :
    (keysOf (jsGroupBy f l)).Nodup := by
  suffices h : ∀ (l : List α) (acc : List (κ × List α)), (keysOf acc).Nodup →
      (keysOf (l.foldl (fun acc p => jsGroupUpd (f p) p acc) acc)).Nodup by
    exact h l [] (by simp [keysOf])
  intro l
  induction l with
  | nil => intro acc hacc; simpa using hacc
  | cons a t ih =>
    intro acc hacc
    rw [List.foldl_cons]
    refine ih _ ?_
    rw [jsGroupUpd_keysOf]
    by_cases h : f a ∈ keysOf acc
    · rw [if_pos h]; exact hacc
    · rw [if_neg h]
      simp only [List.nodup_append, List.nodup_cons, List.nodup_nil]
      exact ⟨hacc, by simp, by simpa [List.disjoint_right] using h⟩

theorem mem_eq_bucketOf {κ α : Type} [DecidableEq κ] (acc : List (κ × List α))
    (hnd : (keysOf acc).Nodup) (kps : κ × List α) (hm : kps ∈ acc) :
    bucketOf kps.1 acc = kps.2 := by
  induction acc with
  | nil => cases hm
  | cons e t ih =>
    obtain ⟨k0, ps⟩ := e
    rcases List.mem_cons.mp hm with h | h
    · subst h
      simp [bucketOf]
    · have hk : kps.1 ∈ keysOf t := by
        simp only [keysOf, List.mem_map]
        exact ⟨kps, h, rfl⟩
      have hne : ¬(k0 = kps.1) := by
        intro he
        rw [keysOf, List.map_cons, List.nodup_cons] at hnd
        exact hnd.1 (he ▸ hk)
      rw [bucketOf, if_neg hne]
      exact ih (by rw [keysOf, List.map_cons, List.nodup_cons] at hnd; exact hnd.2) h

theorem jsGroupBy_mem_eq_filter {κ α : Type} [DecidableEq κ] (f : α → κ) (l : List α)
    (kps : κ × List α) (hm : kps ∈ jsGroupBy f l) :
    kps.2 = l.filter (fun a => decide (f a = kps.1)) := by
  rw [← jsGroupBy_bucketOf f l kps.1]
  exact (mem_eq_bucketOf _ (jsGroupBy_keysOf_nodup f l) _ hm).symm

theorem perm_join {α : Type} {l₁ l₂ : List (List α)} (h : l₁.Perm l₂) :
    l₁.join.Perm l₂.join := by
  induction h with
  | nil => exact List.Perm.refl _
  | cons x _ ih => simpa using ih.append_left x
  | swap x y l =>
    simp only [List.join_cons, ← List.append_assoc]
    exact (List.perm_append_comm).append_right l.join
  | trans _ _ ih1 ih2 => exact ih1.trans ih2

theorem jsGroupUpd_ne_nil {κ α : Type} [DecidableEq κ] (k : κ) (p : α)
    (acc : List (κ × List α)) (h : ∀ kps ∈ acc, kps.2 ≠ []) :
    ∀ kps ∈ jsGroupUpd k p acc, kps.2 ≠ [] := by
  induction acc with
  | nil =>
    intro kps hm
    simp only [jsGroupUpd, List.mem_singleton] at hm
    subst hm
    simp
  | cons e t ih =>
    obtain ⟨k0, ps⟩ := e
    rw [jsGroupUpd]
    by_cases h0 : k0 = k
    · rw [if_pos h0]
      intro kps hm
      rcases List.mem_cons.mp hm with hh | hh
      · subst hh; simp
      · exact h kps (List.mem_cons_of_mem _ hh)
    · rw [if_neg h0]
      intro kps hm
      rcases List.mem_cons.mp hm with hh | hh
      · subst hh
        exact h (k0, ps) (List.mem_cons_self _ _)
      · exact ih (fun x hx => h x (List.mem_cons_of_mem _ hx)) kps hh

theorem jsGroupBy_ne_nil {κ α : Type} [DecidableEq κ] (f : α → κ) (l : List α) :
    ∀ kps ∈ jsGroupBy f l, kps.2 ≠ [] := by
  suffices hs : ∀ (l : List α) (acc : List (κ × List α)),
      (∀ kps ∈ acc, kps.2 ≠ []) →
      ∀ kps ∈ l.foldl (fun acc p => jsGroupUpd (f p) p acc) acc, kps.2 ≠ [] by
    exact hs l [] (by simp)
  intro l
  induction l with
  | nil => intro acc h; simpa using h
  | cons a t ih =>
    intro acc h
    rw [List.foldl_cons]
    exact ih _ (jsGroupUpd_ne_nil (f a) a acc h)

theorem map_join_eq {α β : Type} (f : α → β) (L : List (List α)) :
    (L.map (List.map f)).join = (L.join).map f := by
  induction L with
  | nil => rfl
  | cons x t ih =>
    show List.map f x ++ (List.map (List.map f) t).join = List.map f (x ++ t.join)
    rw [List.map_append, ih]

/-- Shared shape of the quarterly/annual aggregation: group, sort, convert.
`toKey` renders the group key as the output string key. -/
theorem agg_grouped_props {κ : Type} [DecidableEq κ] (keyf : Period → κ)
    (le : κ × List Period → κ × List Period → Bool) (toKey : κ → String)
    (ms : List Period) :
    ((((jsSortBy le (jsGroupBy keyf ms)).map
        (fun e => bucketToAgg (toKey e.1) e.2)).map
          (fun ap => ap.members.getD [])).join).Perm (ms.map (·.key)) ∧
    ∀ ap ∈ (jsSortBy le (jsGroupBy keyf ms)).map
        (fun e => bucketToAgg (toKey e.1) e.2),
      ∃ months : List Period, months ≠ [] ∧ months.Sublist ms ∧
        ap.members = some (months.map (·.key)) ∧
        ap.start = (months.headD defaultPeriod).start ∧
        ap.«end» = (months.getLastD defaultPeriod).«end» := by
  constructor
  · have h1 : (((jsSortBy le (jsGroupBy keyf ms)).map
        (fun e => bucketToAgg (toKey e.1) e.2)).map (fun ap => ap.members.getD []))
        = ((jsSortBy le (jsGroupBy keyf ms)).map Prod.snd).map
            (List.map (fun p => p.key)) := by
      rw [List.map_map, List.map_map]
      rfl
    rw [h1, map_join_eq]
    have h2 : (((jsSortBy le (jsGroupBy keyf ms)).map Prod.snd).join).Perm ms := by
      have hp : (joinVals (jsSortBy le (jsGroupBy keyf ms))).Perm
          (joinVals (jsGroupBy keyf ms)) :=
        perm_join ((jsSortBy_perm le (jsGroupBy keyf ms)).map Prod.snd)
      exact hp.trans (jsGroupBy_joinVals keyf ms)
    exact h2.map _
  · intro ap hm
    obtain ⟨e, he, hconv⟩ := List.mem_map.mp hm
    have hmem : e ∈ jsGroupBy keyf ms :=
      (jsSortBy_perm le (jsGroupBy keyf ms)).mem_iff.mp he
    refine ⟨e.2, jsGroupBy_ne_nil keyf ms e hmem, ?_, ?_, ?_, ?_⟩
    · rw [jsGroupBy_mem_eq_filter keyf ms e hmem]
      exact List.filter_sublist _
    · rw [← hconv]; rfl
    · rw [← hconv]; rfl
    · rw [← hconv]; rfl

theorem monthlyKeys_nodup (s e : JSDate) (hs : isNormDate s) (he : isNormDate e)
    (hle : jsLe s e = true) :
    ((buildMonthlyPeriods s e).map (fun p => p.key)).Nodup := by
  rw [buildMonthlyPeriods_spec s e hs he hle, List.map_map]
  refine (List.nodup_range _).map_on ?_
  intro i _ j _ hfe
  simp only [Function.comp_apply] at hfe
  have := monthKey_inj _ _ hfe
  omega

/-! ## Claim C4 -/

/-- C4: over the monthly periods of any valid range, quarterly and annual
aggregation return groups whose `members` exactly partition the monthly
period keys (their concatenation is a permutation of the distinct monthly
keys, so each key lands in exactly one group, once); each group's members
are listed chronologically (an order-preserving sublist of the monthly
periods) and each group's `start`/`end` are its first and last member's
bounds.  With grain `monthly` the aggregation is the identity on the
periods. -/
theorem C4_thm (s e : JSDate) (hs : isNormDate s) (he : isNormDate e)
    (hle : jsLe s e = true) (ms : List Period) (hms : ms = buildMonthlyPeriods s e) :
    (aggregatePeriodsFromMonthly ms Grain.monthly =
      ms.map (fun p => ⟨p.key, p.label, p.start, p.«end», none⟩)) ∧
    (ms.map (fun p => p.key)).Nodup ∧
    (∀ g : Grain, g = Grain.quarterly ∨ g = Grain.annually →
      ((((aggregatePeriodsFromMonthly ms g).map
          (fun ap => ap.members.getD [])).join).Perm (ms.map (fun p => p.key)) ∧
       ∀ ap ∈ aggregatePeriodsFromMonthly ms g, ∃ months : List Period,
         months ≠ [] ∧ months.Sublist ms ∧
         ap.members = some (months.map (fun p => p.key)) ∧
         ap.start = (months.headD defaultPeriod).start ∧
         ap.«end» = (months.getLastD defaultPeriod).«end»)) := by
  refine ⟨rfl, hms ▸ monthlyKeys_nodup s e hs he hle, ?_⟩
  intro g hg
  rcases hg with h | h <;> subst h
  · exact agg_grouped_props quarterKeyOf _ (fun k => k) ms
  · exact agg_grouped_props yearKeyOf _ (fun y => (⟨intChars y⟩ : String)) ms

/-- C4 witness: the theorem applied to the concrete range
2025-01-01 .. 2025-06-30. -/
theorem C4_witness :
    isNormDate ⟨2025, 0, 1, 0, 0, 0, 0⟩ ∧ isNormDate ⟨2025, 5, 30, 0, 0, 0, 0⟩ ∧
    jsLe ⟨2025, 0, 1, 0, 0, 0, 0⟩ ⟨2025, 5, 30, 0, 0, 0, 0⟩ = true ∧
    (aggregatePeriodsFromMonthly
        (buildMonthlyPeriods ⟨2025, 0, 1, 0, 0, 0, 0⟩ ⟨2025, 5, 30, 0, 0, 0, 0⟩)
        Grain.monthly =
      (buildMonthlyPeriods ⟨2025, 0, 1, 0, 0, 0, 0⟩ ⟨2025, 5, 30, 0, 0, 0, 0⟩).map
        (fun p => ⟨p.key, p.label, p.start, p.«end», none⟩)) ∧
    ((((aggregatePeriodsFromMonthly
        (buildMonthlyPeriods ⟨2025, 0, 1, 0, 0, 0, 0⟩ ⟨2025, 5, 30, 0, 0, 0, 0⟩)
        Grain.quarterly).map (fun ap => ap.members.getD [])).join).Perm
      ((buildMonthlyPeriods ⟨2025, 0, 1, 0, 0, 0, 0⟩ ⟨2025, 5, 30, 0, 0, 0, 0⟩).map
        (fun p => p.key))) := by
  have h := C4_thm ⟨2025, 0, 1, 0, 0, 0, 0⟩ ⟨2025, 5, 30, 0, 0, 0, 0⟩
    (by decide) (by decide) (by decide) _ rfl
  exact ⟨by decide, by decide, by decide, h.1, (h.2.2 Grain.quarterly (Or.inl rfl)).1⟩

/-! ## Normalization of constructed dates -/

def isNormYMD (t : Int × Int × Int) : Prop :=
  0 ≤ t.2.1 ∧ t.2.1 ≤ 11 ∧ 1 ≤ t.2.2 ∧ t.2.2 ≤ daysInMonth t.1 t.2.1

theorem normDay_norm_low (fuel : Nat) : ∀ y m d : Int, 0 ≤ m → m ≤ 11 →
    d ≤ daysInMonth y m → -(28 * (fuel : Int)) ≤ d →
    isNormYMD (normDay (fuel + 1) y m d) := by
  induction fuel with
  | zero =>
    intro y m d hm0 hm1 hd1 hd2
    rw [show (0 + 1 : Nat) = 1 from rfl, normDay]
    by_cases h : d < 1
    · have hd : d = 0 := by omega
      subst hd
      rw [if_pos (by omega)]
      have hb := daysInMonth_bounds (if m = 0 then y - 1 else y) (if m = 0 then 11 else m - 1)
      rw [normDay]
      dsimp only [isNormYMD]
      refine ⟨?_, ?_, by omega, by omega⟩ <;> split <;> omega
    · rw [if_neg h, if_neg (by omega)]
      dsimp only [isNormYMD]
      exact ⟨hm0, hm1, by omega, hd1⟩
  | succ fuel ih =>
    intro y m d hm0 hm1 hd1 hd2
    rw [normDay]
    by_cases h : d < 1
    · rw [if_pos h]
      have hb := daysInMonth_bounds (if m = 0 then y - 1 else y) (if m = 0 then 11 else m - 1)
      refine ih _ _ _ (by split <;> omega) (by split <;> omega) (by omega) (by push_cast; omega)
    · rw [if_neg h, if_neg (by omega)]
      dsimp only [isNormYMD]
      exact ⟨hm0, hm1, by omega, hd1⟩

theorem normDay_norm_high (fuel : Nat) : ∀ y m d : Int, 0 ≤ m → m ≤ 11 →
    1 ≤ d → d ≤ 28 * (fuel : Int) + 28 →
    isNormYMD (normDay (fuel + 1) y m d) := by
  induction fuel with
  | zero =>
    intro y m d hm0 hm1 hd1 hd2
    have hb := daysInMonth_bounds y m
    rw [show (0 + 1 : Nat) = 1 from rfl, normDay, if_neg (by omega), if_neg (by omega)]
    dsimp only [isNormYMD]
    exact ⟨hm0, hm1, hd1, by omega⟩
  | succ fuel ih =>
    intro y m d hm0 hm1 hd1 hd2
    have hb := daysInMonth_bounds y m
    rw [normDay]
    by_cases h : daysInMonth y m < d
    · rw [if_neg (by omega), if_pos h]
      refine ih _ _ _ (by split <;> omega) (by split <;> omega) (by omega) (by push_cast; omega)
    · rw [if_neg (by omega), if_neg h]
      dsimp only [isNormYMD]
      exact ⟨hm0, hm1, hd1, by omega⟩

/-- Any `new Date(y, mo, d, …)` with a day argument within ±11000 of range
and an in-range time of day is a normalized date. -/
theorem mkDate7_norm (y mo d h mi s ms : Int)
    (hd1 : -11000 ≤ d) (hd2 : d ≤ 11000)
    (hh : 0 ≤ h ∧ h ≤ 23) (hmi : 0 ≤ mi ∧ mi ≤ 59)
    (hs : 0 ≤ s ∧ s ≤ 59) (hms : 0 ≤ ms ∧ ms ≤ 999) :
    isNormDate (mkDate7 y mo d h mi s ms) := by
  rw [mkDate7]
  have hm0 : 0 ≤ mo % 12 := by omega
  have hm1 : mo % 12 ≤ 11 := by omega
  have hb := daysInMonth_bounds (y + mo / 12) (mo % 12)
  have hnorm : isNormYMD (normDay 400 (y + mo / 12) (mo % 12) d) := by
    by_cases hc : d ≤ daysInMonth (y + mo / 12) (mo % 12)
    · exact normDay_norm_low 399 _ _ _ hm0 hm1 hc (by push_cast; omega)
    · exact normDay_norm_high 399 _ _ _ hm0 hm1 (by omega) (by push_cast; omega)
  obtain ⟨n1, n2, n3, n4⟩ := hnorm
  exact ⟨n1, n2, n3, n4, hh.1, hh.2, hmi.1, hmi.2, hs.1, hs.2, hms.1, hms.2⟩

theorem mkDate_norm (y mo d : Int) (hd1 : -11000 ≤ d) (hd2 : d ≤ 11000) :
    isNormDate (mkDate y mo d) :=
  mkDate7_norm y mo d 0 0 0 0 hd1 hd2 (by omega) (by omega) (by omega) (by omega)

theorem digitVal_bounds (c : Char) (h : isDigitChar c = true) :
    0 ≤ digitVal c ∧ digitVal c ≤ 9 := by
  simp only [isDigitChar, Bool.and_eq_true, decide_eq_true_eq] at h
  simp only [digitVal]
  omega

/-- Every date `parseDate` returns is normalized. -/
theorem parseDateChars_norm (l : List Char) (d : JSDate)
    (h : parseDateChars l = some d) : isNormDate d := by
  unfold parseDateChars at h
  split at h
  · split at h
    · rename_i hcond
      simp only [Option.some.injEq] at h
      subst h
      simp only [Bool.and_eq_true] at hcond
      obtain ⟨⟨⟨⟨⟨⟨⟨_, _⟩, _⟩, _⟩, _⟩, _⟩, hd1c⟩, hd2c⟩ := hcond
      have b1 := digitVal_bounds _ hd1c
      have b2 := digitVal_bounds _ hd2c
      exact mkDate_norm _ _ _ (by omega) (by omega)
    · cases h
  · cases h

theorem parseDate_norm (v : Option String) (d : JSDate) (h : parseDate v = some d) :
    isNormDate d := by
  match v with
  | none => exact absurd h (by simp [parseDate])
  | some raw =>
    rw [parseDate] at h
    by_cases he : raw = ""
    · rw [if_pos he] at h; cases h
    · rw [if_neg he] at h
      exact parseDateChars_norm _ _ h

theorem parse_orElse_norm (a b : Option String) (s : JSDate)
    (h : ((parseDate a).orElse (fun _ => parseDate b)) = some s) : isNormDate s := by
  rcases hpa : parseDate a with _ | da
  · rw [hpa] at h
    simp only [Option.orElse] at h
    exact parseDate_norm b s h
  · rw [hpa] at h
    simp only [Option.orElse, Option.some.injEq] at h
    subst h
    exact parseDate_norm a _ hpa

/-- The start of every derivable billing window comes from `parseDate`, so it
is a normalized date. -/
theorem computeWindow_start_norm (p : LineItemProps) (w : BillingWindow)
    (h : computeWindowForLineItem p = some w) : isNormDate w.start := by
  unfold computeWindowForLineItem at h
  split at h
  · cases h
  · rename_i start hstart
    have hn := parse_orElse_norm _ _ _ hstart
    split at h
    · simp only [Option.some.injEq] at h
      subst h
      exact hn
    · split at h <;>
      · simp only [Option.some.injEq] at h
        subst h
        exact hn

/-- What the earliest-recurring pick of a deal guarantees: the picked line
item is not one-time, has strictly positive computed ARR, and the picked
date is its window start. -/
def earliestPickValid (items : List (String × LineItemProps))
    (pick : String × JSDate) : Prop :=
  isOneTimeLineItem (propsFor items pick.1) = false ∧
  0 < computeCalculatedArrForLineItem (propsFor items pick.1) ∧
  ∃ w, computeWindowForLineItem (propsFor items pick.1) = some w ∧ w.start = pick.2

theorem findEarliestStep_valid (items : List (String × LineItemProps))
    (b : Option (String × JSDate)) (liId : String)
    (hb : ∀ pick, b = some pick → earliestPickValid items pick) :
    ∀ pick, findEarliestStep items b liId = some pick → earliestPickValid items pick := by
  intro pick h
  unfold findEarliestStep at h
  split at h
  · exact hb pick h
  · rename_i hone
    split at h
    · exact hb pick h
    · rename_i harrle
      split at h
      · exact hb pick h
      · rename_i w hw
        split at h
        · simp only [Option.some.injEq] at h
          subst h
          exact ⟨by simpa using hone, by push_neg at harrle; exact harrle, w, hw, rfl⟩
        · split at h
          · simp only [Option.some.injEq] at h
            subst h
            exact ⟨by simpa using hone, by push_neg at harrle; exact harrle, w, hw, rfl⟩
          · exact hb pick h

/-- If `findEarliestNonOneTimeLineItemStart` selects a pick, that pick is a
non-one-time line item with positive computed ARR whose window start is the
picked date. -/
theorem findEarliest_valid (liIds : List String)
    (items : List (String × LineItemProps)) (pick : String × JSDate)
    (h : findEarliestNonOneTimeLineItemStart liIds items = some pick) :
    earliestPickValid items pick := by
  rw [findEarliestNonOneTimeLineItemStart] at h
  revert h
  suffices hgen : ∀ (l : List String) (b : Option (String × JSDate)),
      (∀ pk, b = some pk → earliestPickValid items pk) →
      ∀ pk, l.foldl (findEarliestStep items) b = some pk → earliestPickValid items pk by
    intro h
    exact hgen liIds none (by intro pk hpk; cases hpk) pick h
  intro l
  induction l with
  | nil => intro b hb pk h; exact hb pk h
  | cons a t ih =>
    intro b hb pk h
    rw [List.foldl_cons] at h
    exact ih _ (findEarliestStep_valid items b a hb) pk h

/-! ## Claim C2 -/

/-- C2: in booked ("arr") mode, for a line item with a derivable window and a
positive FX-converted annualized value, the value a monthly period receives
is that annualized value exactly when the window contains the period's end
instant (`window.start <= period.end` and `window.end >= period.end`), and 0
otherwise. -/
theorem C2_thm (ctx : DealCtx) (fxRate : ℚ) (liId : String) (p : LineItemProps)
    (w : BillingWindow) (hw : computeWindowForLineItem p = some w)
    (hpos : 0 < liArrFxOf fxRate p) :
    ∀ mp : Period,
      monthlyValue ReportMode.arr ctx fxRate liId p mp =
        (if jsLe w.start mp.«end» = true ∧ jsLe mp.«end» w.«end» = true
         then liArrFxOf fxRate p else 0) := by
  intro mp
  simp only [monthlyValue, hw]
  rw [if_neg (by intro h; rw [h] at hpos; exact lt_irrefl 0 hpos)]
  rw [if_pos trivial]
  by_cases h1 : jsLe w.start mp.«end» = true <;>
    by_cases h2 : jsLe mp.«end» w.«end» = true <;>
    simp [h1, h2]

/-- The booked-mode scenario record: window `2025-01-15 .. 2025-12-31`,
monthly amount 1000. -/
def c2ScenarioProps : LineItemProps :=
  { hs_recurring_billing_start_date := some "2025-01-15"
    hs_recurring_billing_end_date := some "2025-12-31"
    amount := some 1000
    recurringbillingfrequency := some "monthly" }

theorem c2Scenario_window :
    computeWindowForLineItem c2ScenarioProps =
      some ⟨⟨2025, 0, 15, 0, 0, 0, 0⟩, ⟨2025, 11, 31, 0, 0, 0, 0⟩, false⟩ := by
  rfl

theorem c2Scenario_arr : computeCalculatedArrForLineItem c2ScenarioProps = 12000 := by
  have hone : isOneTimeLineItem c2ScenarioProps = false := by rfl
  have hfreq : frequencyMultiplier c2ScenarioProps.recurringbillingfrequency = 12 := by
    rfl
  simp only [computeCalculatedArrForLineItem, hone, Bool.false_eq_true, if_false, hfreq,
    toNumber, show c2ScenarioProps.amount = some 1000 from rfl,
    show c2ScenarioProps.net_price = none from rfl, Option.getD]
  norm_num [round2, jsRound]

theorem c2Scenario_liArrFx : liArrFxOf 1 c2ScenarioProps = 12000 := by
  simp only [liArrFxOf, c2Scenario_arr]
  norm_num [round2, jsRound]

/-- C2 witness: the scenario of the claim — range 2025-01..2025-03, booked
record with window 2025-01-15..2025-12-31 and monthly amount 1000, FX rate 1:
annualized value 12000 and 12000 in each of the three months (whose ends the
window covers). -/
theorem C2_witness :
    computeCalculatedArrForLineItem c2ScenarioProps = 12000 ∧
    0 < liArrFxOf 1 c2ScenarioProps ∧
    (∀ mp ∈ buildMonthlyPeriods ⟨2025, 0, 1, 0, 0, 0, 0⟩ ⟨2025, 2, 31, 0, 0, 0, 0⟩,
      monthlyValue ReportMode.arr ⟨false, none, none⟩ 1 "li-1" c2ScenarioProps mp = 12000) := by
  refine ⟨c2Scenario_arr, by rw [c2Scenario_liArrFx]; norm_num, ?_⟩
  intro mp hmp
  have hmem : mp = monthlyPeriodOfIdx 24300 ∨ mp = monthlyPeriodOfIdx 24301 ∨
      mp = monthlyPeriodOfIdx 24302 := by
    have he : buildMonthlyPeriods ⟨2025, 0, 1, 0, 0, 0, 0⟩ ⟨2025, 2, 31, 0, 0, 0, 0⟩ =
        [monthlyPeriodOfIdx 24300, monthlyPeriodOfIdx 24301, monthlyPeriodOfIdx 24302] := by
      rfl
    rw [he] at hmp
    simpa using hmp
  have hval := C2_thm ⟨false, none, none⟩ 1 "li-1" c2ScenarioProps _ c2Scenario_window
    (by rw [c2Scenario_liArrFx]; norm_num) mp
  rcases hmem with h | h | h <;>
    (subst h; rw [hval, if_pos (by refine ⟨rfl, rfl⟩)]; exact c2Scenario_liArrFx)

/-! ## Claims C1 and C10: contracted-mode attribution -/

theorem jsEq_monthOfIdx_iff (a b : Int) :
    jsEq (monthOfIdx a) (monthOfIdx b) = true ↔ a = b := by
  simp only [jsEq, lexKey, monthOfIdx, beq_iff_eq]
  omega

theorem jsLe_monthOfIdx_monthOfIdx_iff (a b : Int) :
    jsLe (monthOfIdx a) (monthOfIdx b) = true ↔ a ≤ b := by
  rw [jsLe_monthOfIdx_iff a (monthOfIdx b) (isNormDate_monthOfIdx b), monthIdx_monthOfIdx]

theorem monthIdx_le_of_jsLt (a b : JSDate) (ha : isNormDate a) (hb : isNormDate b)
    (h : jsLt a b = true) : monthIdx a ≤ monthIdx b := by
  refine monthIdx_le_of_jsLe a b ha hb ?_
  simp only [jsLt, decide_eq_true_eq] at h
  simp only [jsLe, decide_eq_true_eq]
  omega

theorem mem_buildMonthlyPeriods (s e : JSDate) (hs : isNormDate s) (he : isNormDate e)
    (hle : jsLe s e = true) (mp : Period) (hmp : mp ∈ buildMonthlyPeriods s e) :
    ∃ n : Int, mp = monthlyPeriodOfIdx n := by
  rw [buildMonthlyPeriods_spec s e hs he hle] at hmp
  obtain ⟨i, _, hi⟩ := List.mem_map.mp hmp
  exact ⟨monthIdx s + i, hi.symm⟩

/-- C1: contracted mode, monthly grain.  For a deal that is not
existing-business/upsell whose close date strictly precedes the window start
of its earliest non-one-time (positive-ARR) line item, that line item's
FX-converted annualized value is attributed to every monthly period from the
close month through the earliest-recurring-start month inclusive, in
addition to the periods whose end its own window covers; every other line
item of the deal, and every line item of an existing-business deal, receives
plain window-coverage attribution (exactly the booked-mode value, no carry). -/
theorem C1_thm (fx : ℚ) (liIds : List String) (items : List (String × LineItemProps))
    (ctx : DealCtx) (cd : JSDate) (rawClose : Option String) (eid : String) (es : JSDate)
    (hexist : ctx.isExistingBusiness = false)
    (hcd : ctx.closeDate = some cd) (hcdparse : parseDate rawClose = some cd)
    (hpick : findEarliestNonOneTimeLineItemStart liIds items = some (eid, es))
    (hearliest : ctx.earliest = some (eid, es))
    (hprec : jsLt cd es = true)
    (s e : JSDate) (hs : isNormDate s) (he : isNormDate e) (hle : jsLe s e = true) :
    ∀ mp ∈ buildMonthlyPeriods s e,
      (∀ w, computeWindowForLineItem (propsFor items eid) = some w →
        monthlyValue ReportMode.contracted ctx fx eid (propsFor items eid) mp =
          (if (monthIdx cd ≤ monthIdx mp.start ∧ monthIdx mp.start ≤ monthIdx es)
              ∨ (jsLe w.start mp.«end» = true ∧ jsLe mp.«end» w.«end» = true)
           then liArrFxOf fx (propsFor items eid) else 0)) ∧
      (∀ liId p, liId ≠ eid →
        monthlyValue ReportMode.contracted ctx fx liId p mp =
          monthlyValue ReportMode.arr ctx fx liId p mp) ∧
      (∀ ctx' : DealCtx, ctx'.isExistingBusiness = true → ∀ liId p,
        monthlyValue ReportMode.contracted ctx' fx liId p mp =
          monthlyValue ReportMode.arr ctx' fx liId p mp) := by
  have hcdn : isNormDate cd := parseDate_norm _ _ hcdparse
  have hvalid := findEarliest_valid liIds items (eid, es) hpick
  obtain ⟨hone, harr, w0, hw0, hws0⟩ := hvalid
  have hesn : isNormDate es := by
    have h := computeWindow_start_norm _ _ hw0
    rw [hws0] at h
    exact h
  have hce : monthIdx cd ≤ monthIdx es := monthIdx_le_of_jsLt cd es hcdn hesn hprec
  intro mp hmp
  obtain ⟨n, rfl⟩ := mem_buildMonthlyPeriods s e hs he hle mp hmp
  have hstart : (monthlyPeriodOfIdx n).start = monthOfIdx n := rfl
  have hcarry : allowCarry ReportMode.contracted ctx = true := by
    simp [allowCarry, hexist, hcd, hearliest, closeMonthOf, hprec]
  refine ⟨?_, ?_, ?_⟩
  · intro w hw
    obtain rfl : w = w0 := by
      rw [hw] at hw0
      exact Option.some.inj hw0
    have hcm : closeMonthOf ctx = some (firstOfMonth cd) := by
      rw [closeMonthOf, hcd]
      rfl
    simp only [monthlyValue, hw]
    by_cases hz : liArrFxOf fx (propsFor items eid) = 0
    · simp [hz]
    · rw [if_neg hz]
      rw [if_neg (by decide : ¬(ReportMode.contracted = ReportMode.arr))]
      rw [if_neg (by rw [hexist]; simp)]
      rw [if_neg (by simp [hearliest])]
      simp only [hearliest, hcm, hcarry,
        firstOfMonth_eq_monthOfIdx cd hcdn, firstOfMonth_eq_monthOfIdx es hesn, hstart,
        monthIdx_monthOfIdx, Bool.true_and, Bool.or_eq_true, Bool.and_eq_true, true_and,
        jsEq_monthOfIdx_iff, jsLe_monthOfIdx_monthOfIdx_iff]
      have hiff : ∀ P : Prop,
          (((n = monthIdx cd ∨ (monthIdx cd ≤ n ∧ n ≤ monthIdx es)) ∨ P) ↔
            ((monthIdx cd ≤ n ∧ n ≤ monthIdx es) ∨ P)) := by
        intro P
        constructor
        · rintro ((h | h) | h)
          · exact Or.inl ⟨le_of_eq h.symm, h ▸ hce⟩
          · exact Or.inl h
          · exact Or.inr h
        · rintro (h | h)
          · exact Or.inl (Or.inr h)
          · exact Or.inr h
      rw [if_congr (hiff _) rfl rfl]
  · intro liId p hne
    simp only [monthlyValue]
    cases hwp : computeWindowForLineItem p with
    | none => rfl
    | some wp =>
      dsimp only
      by_cases hz : liArrFxOf fx p = 0
      · simp [hz]
      · rw [if_neg hz, if_neg hz]
        rw [if_neg (by decide : ¬(ReportMode.contracted = ReportMode.arr))]
        rw [if_neg (by rw [hexist]; simp)]
        rw [if_pos (by simp [hearliest, hne])]
        rw [if_pos trivial]
  · intro ctx' hex' liId p
    simp only [monthlyValue]
    cases hwp : computeWindowForLineItem p with
    | none => rfl
    | some wp =>
      dsimp only
      by_cases hz : liArrFxOf fx p = 0
      · simp [hz]
      · rw [if_neg hz, if_neg hz]
        rw [if_neg (by decide : ¬(ReportMode.contracted = ReportMode.arr))]
        rw [if_pos (by rw [hex'])]
        rw [if_pos trivial]

/-- The contracted-mode scenario record: recurring window
`2025-04-01 .. 2026-03-31`, monthly amount 100 (annualized 1200). -/
def c1Props : LineItemProps :=
  { hs_recurring_billing_start_date := some "2025-04-01"
    hs_recurring_billing_end_date := some "2026-03-31"
    amount := some 100
    recurringbillingfrequency := some "monthly" }

def c1Items : List (String × LineItemProps) := [("li1", c1Props)]

theorem c1_window :
    computeWindowForLineItem c1Props =
      some ⟨⟨2025, 3, 1, 0, 0, 0, 0⟩, ⟨2026, 2, 31, 0, 0, 0, 0⟩, false⟩ := by
  rfl

theorem c1_arr : computeCalculatedArrForLineItem c1Props = 1200 := by
  have hone : isOneTimeLineItem c1Props = false := by rfl
  have hfreq : frequencyMultiplier c1Props.recurringbillingfrequency = 12 := by
    rfl
  simp only [computeCalculatedArrForLineItem, hone, Bool.false_eq_true, if_false, hfreq,
    toNumber, show c1Props.amount = some 100 from rfl,
    show c1Props.net_price = none from rfl, Option.getD]
  norm_num [round2, jsRound]

theorem c1_liArrFx : liArrFxOf 1 c1Props = 1200 := by
  simp only [liArrFxOf, c1_arr]
  norm_num [round2, jsRound]

theorem c1_pick :
    findEarliestNonOneTimeLineItemStart ["li1"] c1Items =
      some ("li1", ⟨2025, 3, 1, 0, 0, 0, 0⟩) := by
  have hprops : propsFor c1Items "li1" = c1Props := rfl
  have hone : isOneTimeLineItem c1Props = false := rfl
  simp only [findEarliestNonOneTimeLineItemStart, List.foldl_cons, List.foldl_nil,
    findEarliestStep, hprops, hone, c1_arr, c1_window, Bool.false_eq_true, if_false]
  norm_num

/-- C1 witness: deal closed 2025-02-10, earliest recurring line item starts
2025-04-01 (annualized 1200, FX 1).  In contracted mode the March 2025
period (index 24302: strictly between close month and start month) receives
1200 even though the window does not cover its end — the booked-mode value
for the same period is 0. -/
theorem C1_witness :
    monthlyValue ReportMode.contracted
        ⟨false, some ⟨2025, 1, 10, 0, 0, 0, 0⟩, some ("li1", ⟨2025, 3, 1, 0, 0, 0, 0⟩)⟩
        1 "li1" (propsFor c1Items "li1") (monthlyPeriodOfIdx 24302) = 1200 ∧
    monthlyValue ReportMode.arr
        ⟨false, some ⟨2025, 1, 10, 0, 0, 0, 0⟩, some ("li1", ⟨2025, 3, 1, 0, 0, 0, 0⟩)⟩
        1 "li1" (propsFor c1Items "li1") (monthlyPeriodOfIdx 24302) = 0 := by
  have hprops : propsFor c1Items "li1" = c1Props := rfl
  have hmem : monthlyPeriodOfIdx 24302 ∈
      buildMonthlyPeriods ⟨2025, 1, 1, 0, 0, 0, 0⟩ ⟨2025, 4, 15, 0, 0, 0, 0⟩ := by
    have hlist : buildMonthlyPeriods ⟨2025, 1, 1, 0, 0, 0, 0⟩ ⟨2025, 4, 15, 0, 0, 0, 0⟩ =
        [monthlyPeriodOfIdx 24301, monthlyPeriodOfIdx 24302,
         monthlyPeriodOfIdx 24303, monthlyPeriodOfIdx 24304] := by
      rfl
    rw [hlist]
    simp
  have hmain := C1_thm 1 ["li1"] c1Items
    ⟨false, some ⟨2025, 1, 10, 0, 0, 0, 0⟩, some ("li1", ⟨2025, 3, 1, 0, 0, 0, 0⟩)⟩
    ⟨2025, 1, 10, 0, 0, 0, 0⟩ (some "2025-02-10") "li1" ⟨2025, 3, 1, 0, 0, 0, 0⟩
    rfl rfl (by rfl) c1_pick rfl (by decide)
    ⟨2025, 1, 1, 0, 0, 0, 0⟩ ⟨2025, 4, 15, 0, 0, 0, 0⟩ (by decide) (by decide) (by decide)
    (monthlyPeriodOfIdx 24302) hmem
  have h1 := hmain.1 ⟨⟨2025, 3, 1, 0, 0, 0, 0⟩, ⟨2026, 2, 31, 0, 0, 0, 0⟩, false⟩
    (by rw [hprops]; exact c1_window)
  constructor
  · rw [h1, if_pos (Or.inl (by decide)), hprops, c1_liArrFx]
  · rw [hprops]
    simp only [monthlyValue, c1_window, c1_liArrFx]
    norm_num
    decide

/-- C10: in contracted mode at monthly grain, for a non-existing-business
deal, the line item selected as earliest non-one-time — a pick that forces
its computed ARR to be positive — contributes its FX-converted value to the
deal's close month unconditionally: no window-coverage and no carry-range
hypothesis appears below. -/
theorem C10_thm (fx : ℚ) (liIds : List String) (items : List (String × LineItemProps))
    (ctx : DealCtx) (cd : JSDate) (eid : String) (es : JSDate)
    (hexist : ctx.isExistingBusiness = false)
    (hcd : ctx.closeDate = some cd)
    (hpick : findEarliestNonOneTimeLineItemStart liIds items = some (eid, es))
    (hearliest : ctx.earliest = some (eid, es))
    (mp : Period) (hclose : jsEq mp.start (firstOfMonth cd) = true) :
    monthlyValue ReportMode.contracted ctx fx eid (propsFor items eid) mp =
      liArrFxOf fx (propsFor items eid) ∧
    0 < computeCalculatedArrForLineItem (propsFor items eid) := by
  have hvalid := findEarliest_valid liIds items (eid, es) hpick
  obtain ⟨hone, harr, w0, hw0, hws0⟩ := hvalid
  refine ⟨?_, harr⟩
  have hcm : closeMonthOf ctx = some (firstOfMonth cd) := by
    rw [closeMonthOf, hcd]
    rfl
  simp only [monthlyValue, hw0]
  by_cases hz : liArrFxOf fx (propsFor items eid) = 0
  · simp [hz]
  · rw [if_neg hz]
    rw [if_neg (by decide : ¬(ReportMode.contracted = ReportMode.arr))]
    rw [if_neg (by rw [hexist]; simp)]
    rw [if_neg (by simp [hearliest])]
    simp only [hcm, hclose, Bool.true_or]
    rw [if_pos trivial]

/-- C10 witness: deal closed 2026-06-15, earliest recurring item with window
2025-04-01..2026-03-31 (annualized 1200, FX 1).  The close month Jun 2026
(index 24317) is outside the window's coverage and the carry condition fails
(close date is after the earliest start), yet the close month still receives
1200. -/
theorem C10_witness :
    monthlyValue ReportMode.contracted
        ⟨false, some ⟨2026, 5, 15, 0, 0, 0, 0⟩, some ("li1", ⟨2025, 3, 1, 0, 0, 0, 0⟩)⟩
        1 "li1" (propsFor c1Items "li1") (monthlyPeriodOfIdx 24317) = 1200 ∧
    allowCarry ReportMode.contracted
        ⟨false, some ⟨2026, 5, 15, 0, 0, 0, 0⟩, some ("li1", ⟨2025, 3, 1, 0, 0, 0, 0⟩)⟩ =
      false ∧
    (jsLe (⟨2025, 3, 1, 0, 0, 0, 0⟩ : JSDate) (monthlyPeriodOfIdx 24317).«end» &&
      jsLe (monthlyPeriodOfIdx 24317).«end» (⟨2026, 2, 31, 0, 0, 0, 0⟩ : JSDate)) = false := by
  refine ⟨?_, by decide, by decide⟩
  have h := C10_thm 1 ["li1"] c1Items
    ⟨false, some ⟨2026, 5, 15, 0, 0, 0, 0⟩, some ("li1", ⟨2025, 3, 1, 0, 0, 0, 0⟩)⟩
    ⟨2026, 5, 15, 0, 0, 0, 0⟩ "li1" ⟨2025, 3, 1, 0, 0, 0, 0⟩
    rfl rfl c1_pick rfl (monthlyPeriodOfIdx 24317) (by decide)
  rw [h.1, show propsFor c1Items "li1" = c1Props from rfl, c1_liArrFx]

/-- C9: at daily grain, contracted mode assigns to every line item exactly
the booked-mode per-day value — plain window coverage of the day — for every
deal context: neither close-day nor carry-range attribution exists in the
daily branch. -/
theorem C9_thm (ctx : DealCtx) (fx : ℚ) (liId : String) (p : LineItemProps)
    (dp : DayPeriod) :
    dailyValue ReportMode.contracted ctx fx liId p dp =
      dailyValue ReportMode.arr ctx fx liId p dp := by
  simp only [dailyValue]
  rw [if_neg (by decide : ¬(ReportMode.contracted = ReportMode.arr)), if_pos trivial,
    if_pos trivial]

/-- C5: `frequencyMultiplier` maps one-time labels to 0, six-month labels to
2, quarterly labels to 4, monthly labels to 12, annual/yearly labels to 1
and everything unrecognized to 0, and never returns anything outside
`{0, 1, 2, 4, 12}`; for a non-one-time line item,
`computeCalculatedArrForLineItem` is `round2(base * multiplier)` where the
base is the amount, falling back to the net price when the amount is absent
or zero (the code's explicit zero branches coincide with `round2 0 = 0`). -/
theorem C5_thm (freqRaw : Option String) (p : LineItemProps)
    (hone : isOneTimeLineItem p = false) :
    (frequencyMultiplier (some "one_time") = 0 ∧
     frequencyMultiplier (some "per_six_months") = 2 ∧
     frequencyMultiplier (some "every six months") = 2 ∧
     frequencyMultiplier (some "Semiannual") = 2 ∧
     frequencyMultiplier (some "quarterly") = 4 ∧
     frequencyMultiplier (some "per_quarter") = 4 ∧
     frequencyMultiplier (some "every three months") = 4 ∧
     frequencyMultiplier (some "monthly") = 12 ∧
     frequencyMultiplier (some "annually") = 1 ∧
     frequencyMultiplier (some "yearly") = 1 ∧
     frequencyMultiplier (some "weekly") = 0 ∧
     frequencyMultiplier none = 0) ∧
    (frequencyMultiplier freqRaw = 0 ∨ frequencyMultiplier freqRaw = 1 ∨
     frequencyMultiplier freqRaw = 2 ∨ frequencyMultiplier freqRaw = 4 ∨
     frequencyMultiplier freqRaw = 12) ∧
    computeCalculatedArrForLineItem p =
      round2 ((if toNumber p.amount = 0 then toNumber p.net_price
        else toNumber p.amount) * frequencyMultiplier p.recurringbillingfrequency) := by
  refine ⟨⟨rfl, rfl, rfl, rfl, rfl, rfl, rfl, rfl, rfl, rfl, rfl, rfl⟩, ?_, ?_⟩
  · simp only [frequencyMultiplier]
    split_ifs <;> simp
  · simp only [computeCalculatedArrForLineItem, hone, Bool.false_eq_true, if_false]
    by_cases hb : (if toNumber p.amount = 0 then toNumber p.net_price
        else toNumber p.amount) = 0
    · rw [if_pos hb, hb, zero_mul]
      norm_num [round2, jsRound]
    · rw [if_neg hb]
      by_cases hm : frequencyMultiplier p.recurringbillingfrequency = 0
      · rw [if_pos hm, hm, mul_zero]
        norm_num [round2, jsRound]
      · rw [if_neg hm]

/-- C5 witness: the scenario line item (monthly, amount 100) is not
one-time; its computed ARR equals `round2(base * multiplier)` with the
amount as base. -/
theorem C5_witness :
    isOneTimeLineItem c1Props = false ∧
    computeCalculatedArrForLineItem c1Props =
      round2 ((if toNumber c1Props.amount = 0 then toNumber c1Props.net_price
        else toNumber c1Props.amount) * frequencyMultiplier c1Props.recurringbillingfrequency) :=
  ⟨rfl, (C5_thm (some "monthly") c1Props rfl).2.2⟩

/-! ## Claim C6: duration-based annualization (bit-faithful evaluation) -/

/-- A positive rational within half a unit of `n` at exponent `e` rounds to
`n · 2^(e-52)`. -/
theorem roundDouble_eq_near (q : ℚ) (e n : Int)
    (h0 : 0 < q) (he : floorLog2Pos q = e)
    (hnear : |mulPow2 q (-(e - 52)) - (n : ℚ)| < 1 / 2) :
    roundDouble q = mulPow2 ((n : Int) : ℚ) (e - 52) := by
  rw [roundDouble, if_neg (ne_of_gt h0), abs_of_pos h0, if_neg (not_lt.mpr (le_of_lt h0))]
  simp only [he]
  rw [abs_sub_lt_iff] at hnear
  obtain ⟨ha, hb⟩ := hnear
  set m := mulPow2 q (-(e - 52)) with hm
  rcases le_or_lt (n : ℚ) m with hge | hlt
  · have hfl : ⌊m⌋ = n := by
      rw [Int.floor_eq_iff]
      constructor
      · exact_mod_cast hge
      · push_cast
        linarith
    rw [hfl]
    have hfrac : m - (n : ℚ) < 1 / 2 := by linarith
    rw [if_neg (by push_cast; linarith), if_pos (by push_cast; linarith)]
    ring
  · have hfl : ⌊m⌋ = n - 1 := by
      rw [Int.floor_eq_iff]
      constructor
      · push_cast
        linarith
      · push_cast
        linarith
    rw [hfl]
    rw [if_pos (by push_cast; linarith)]
    push_cast
    ring_nf

theorem log2h1 : Nat.log2 146097 = 17 := by norm_num [Nat.log2]
theorem log2h2 : Nat.log2 400 = 8 := by norm_num [Nat.log2]
theorem log2h3 : Nat.log2 160635350283190275 = 57 := by norm_num [Nat.log2]
theorem log2h4 : Nat.log2 4398046511104 = 42 := by norm_num [Nat.log2]
theorem log2h5 : Nat.log2 30 = 4 := by norm_num [Nat.log2]
theorem log2h6 : Nat.log2 24 = 4 := by norm_num [Nat.log2]
theorem log2h7 : Nat.log2 48699 = 15 := by norm_num [Nat.log2]
theorem log2h8 : Nat.log2 40 = 5 := by norm_num [Nat.log2]
theorem log2h9 : Nat.log2 66931395951329275 = 55 := by norm_num [Nat.log2]
theorem log2h10 : Nat.log2 549755813888 = 39 := by norm_num [Nat.log2]
theorem log2h11 : Nat.log2 121747 = 16 := by norm_num [Nat.log2]
theorem log2h12 : Nat.log2 100 = 6 := by norm_num [Nat.log2]
theorem log2h13 : Nat.log2 1 = 0 := by norm_num [Nat.log2]
theorem log2h14 : Nat.log2 30437 = 14 := by norm_num [Nat.log2]
theorem log2h15 : Nat.log2 25 = 4 := by norm_num [Nat.log2]

theorem fl365 : floorLog2Pos (3652425 / 10000) = 8 := by
  have h1 : ((3652425 : ℚ) / 10000).num = 146097 := by norm_num
  have h2 : ((3652425 : ℚ) / 10000).den = 400 := by norm_num
  have h3 : (146097 : ℤ).toNat = 146097 := rfl
  rw [floorLog2Pos, h1, h2, h3, log2h1, log2h2]
  norm_num [mulPow2, Int.toNat]

theorem rd365 : roundDouble (3652425 / 10000) = 6425414011327611 / 17592186044416 := by
  rw [roundDouble_eq_near (3652425 / 10000) 8 6425414011327611 (by norm_num) fl365
    (by norm_num [mulPow2, Int.toNat, abs_lt])]
  norm_num [mulPow2, Int.toNat]

theorem flMul100 : floorLog2Pos (160635350283190275 / 4398046511104) = 15 := by
  have h1 : ((160635350283190275 : ℚ) / 4398046511104).num = 160635350283190275 := by
    norm_num
  have h2 : ((160635350283190275 : ℚ) / 4398046511104).den = 4398046511104 := by
    norm_num
  have h3 : (160635350283190275 : ℤ).toNat = 160635350283190275 := rfl
  rw [floorLog2Pos, h1, h2, h3, log2h3, log2h4]
  norm_num [mulPow2, Int.toNat]

theorem rdMul100 :
    roundDouble (160635350283190275 / 4398046511104) = 146097 / 4 := by
  rw [roundDouble_eq_near (160635350283190275 / 4398046511104) 15 5019854696349696
    (by norm_num) flMul100 (by norm_num [mulPow2, Int.toNat, abs_lt])]
  norm_num [mulPow2, Int.toNat]

theorem flDur : floorLog2Pos ((2592000000 : ℚ) / 86400000) = 4 := by
  have h1 : ((2592000000 : ℚ) / 86400000).num = 30 := by norm_num
  have h2 : ((2592000000 : ℚ) / 86400000).den = 1 := by norm_num
  have h3 : (30 : ℤ).toNat = 30 := rfl
  rw [floorLog2Pos, h1, h2, h3, log2h5, log2h13]
  norm_num [mulPow2, Int.toNat]

theorem rdDur : roundDouble ((2592000000 : ℚ) / 86400000) = 30 := by
  rw [roundDouble_eq_near ((2592000000 : ℚ) / 86400000) 4 8444249301319680
    (by norm_num) flDur (by norm_num [mulPow2, Int.toNat, abs_lt])]
  norm_num [mulPow2, Int.toNat]

theorem fl124 : floorLog2Pos ((1 : ℚ) / 24) = -5 := by
  have h1 : ((1 : ℚ) / 24).num = 1 := by norm_num
  have h2 : ((1 : ℚ) / 24).den = 24 := by norm_num
  have h3 : (1 : ℤ).toNat = 1 := rfl
  rw [floorLog2Pos, h1, h2, h3, log2h13, log2h6]
  norm_num [mulPow2, Int.toNat]

theorem rd124 : roundDouble ((1 : ℚ) / 24) = 6004799503160661 / 144115188075855872 := by
  rw [roundDouble_eq_near ((1 : ℚ) / 24) (-5) 6004799503160661
    (by norm_num) fl124 (by norm_num [mulPow2, Int.toNat, abs_lt])]
  norm_num [mulPow2, Int.toNat]

theorem flQuot : floorLog2Pos ((146097 : ℚ) / 4 / 30) = 10 := by
  have h1 : ((146097 : ℚ) / 4 / 30).num = 48699 := by norm_num
  have h2 : ((146097 : ℚ) / 4 / 30).den = 40 := by norm_num
  have h3 : (48699 : ℤ).toNat = 48699 := rfl
  rw [floorLog2Pos, h1, h2, h3, log2h7, log2h8]
  norm_num [mulPow2, Int.toNat]

theorem rdQuot :
    roundDouble ((146097 : ℚ) / 4 / 30) = 2677255838053171 / 2199023255552 := by
  rw [roundDouble_eq_near ((146097 : ℚ) / 4 / 30) 10 5354511676106342
    (by norm_num) flQuot (by norm_num [mulPow2, Int.toNat, abs_lt])]
  norm_num [mulPow2, Int.toNat]

theorem flCents : floorLog2Pos (2677255838053171 / 2199023255552 * 100) = 16 := by
  have h1 : ((2677255838053171 : ℚ) / 2199023255552 * 100).num = 66931395951329275 := by
    norm_num
  have h2 : ((2677255838053171 : ℚ) / 2199023255552 * 100).den = 549755813888 := by
    norm_num
  have h3 : (66931395951329275 : ℤ).toNat = 66931395951329275 := rfl
  rw [floorLog2Pos, h1, h2, h3, log2h9, log2h10]
  norm_num [mulPow2, Int.toNat]

theorem rdCents :
    roundDouble (2677255838053171 / 2199023255552 * 100) =
      8366424493916159 / 68719476736 := by
  rw [roundDouble_eq_near (2677255838053171 / 2199023255552 * 100) 16 8366424493916159
    (by norm_num) flCents (by norm_num [mulPow2, Int.toNat, abs_lt])]
  norm_num [mulPow2, Int.toNat]

theorem flFinal : floorLog2Pos ((121747 : ℚ) / 100) = 10 := by
  have h1 : ((121747 : ℚ) / 100).num = 121747 := by norm_num
  have h2 : ((121747 : ℚ) / 100).den = 100 := by norm_num
  have h3 : (121747 : ℤ).toNat = 121747 := rfl
  rw [floorLog2Pos, h1, h2, h3, log2h11, log2h12]
  norm_num [mulPow2, Int.toNat]

theorem rdFinal :
    roundDouble ((121747 : ℚ) / 100) = 5354489685873787 / 4398046511104 := by
  rw [roundDouble_eq_near ((121747 : ℚ) / 100) 10 5354489685873787
    (by norm_num) flFinal (by norm_num [mulPow2, Int.toNat, abs_lt])]
  norm_num [mulPow2, Int.toNat]

theorem fl4830 : floorLog2Pos ((30437 : ℚ) / 25) = 10 := by
  have h1 : ((30437 : ℚ) / 25).num = 30437 := by norm_num
  have h2 : ((30437 : ℚ) / 25).den = 25 := by norm_num
  have h3 : (30437 : ℤ).toNat = 30437 := rfl
  rw [floorLog2Pos, h1, h2, h3, log2h14, log2h15]
  norm_num [mulPow2, Int.toNat]

theorem rd4830 :
    roundDouble ((30437 : ℚ) / 25) = 2677266833169449 / 2199023255552 := by
  rw [roundDouble_eq_near ((30437 : ℚ) / 25) 10 5354533666338898
    (by norm_num) fl4830 (by norm_num [mulPow2, Int.toNat, abs_lt])]
  norm_num [mulPow2, Int.toNat]

theorem c6_scenario :
    annualizedAmountFromPeriod 100 0 2592000000 = 5354489685873787 / 4398046511104 := by
  have e1 : fp365_2425 = 6425414011327611 / 17592186044416 := rd365
  have e2 : fpMul 100 fp365_2425 = 146097 / 4 := by
    rw [fpMul, e1]
    rw [show (100 : ℚ) * (6425414011327611 / 17592186044416) =
      160635350283190275 / 4398046511104 from by norm_num]
    exact rdMul100
  have e3 : fpDiv (2592000000 : ℚ) 86400000 = 30 := rdDur
  have e4 : fp1Over24 = 6004799503160661 / 144115188075855872 := rd124
  have e5 : max (30 : ℚ) (6004799503160661 / 144115188075855872) = 30 := by
    rw [max_eq_left]
    norm_num
  have e6 : fpDiv (146097 / 4 : ℚ) 30 = 2677255838053171 / 2199023255552 := rdQuot
  have e7 : fpMul (2677255838053171 / 2199023255552 : ℚ) 100 =
      8366424493916159 / 68719476736 := rdCents
  have e8 : jsRound (8366424493916159 / 68719476736 : ℚ) = 121747 := by
    norm_num [jsRound]
  have e9 : fpDiv ((121747 : ℚ)) 100 = 5354489685873787 / 4398046511104 := rdFinal
  simp only [annualizedAmountFromPeriod]
  rw [if_neg (by norm_num : ¬((2592000000 : Int) - 0 ≤ 0))]
  norm_num
  rw [e2, e3, e4, e5, e6, round2Fp, e7, e8]
  rw [show ((121747 : ℤ) : ℚ) = (121747 : ℚ) from by norm_num, e9]

theorem c6_scenario_dates :
    annualizedAmountFromPeriod 100 1735689600000 1738281600000 =
      5354489685873787 / 4398046511104 := by
  have e1 : fp365_2425 = 6425414011327611 / 17592186044416 := rd365
  have e2 : fpMul 100 fp365_2425 = 146097 / 4 := by
    rw [fpMul, e1]
    rw [show (100 : ℚ) * (6425414011327611 / 17592186044416) =
      160635350283190275 / 4398046511104 from by norm_num]
    exact rdMul100
  have e3 : fpDiv (2592000000 : ℚ) 86400000 = 30 := rdDur
  have e4 : fp1Over24 = 6004799503160661 / 144115188075855872 := rd124
  have e5 : max (30 : ℚ) (6004799503160661 / 144115188075855872) = 30 := by
    rw [max_eq_left]
    norm_num
  have e6 : fpDiv (146097 / 4 : ℚ) 30 = 2677255838053171 / 2199023255552 := rdQuot
  have e7 : fpMul (2677255838053171 / 2199023255552 : ℚ) 100 =
      8366424493916159 / 68719476736 := rdCents
  have e8 : jsRound (8366424493916159 / 68719476736 : ℚ) = 121747 := by
    norm_num [jsRound]
  have e9 : fpDiv ((121747 : ℚ)) 100 = 5354489685873787 / 4398046511104 := rdFinal
  simp only [annualizedAmountFromPeriod]
  rw [if_neg (by norm_num : ¬((1738281600000 : Int) - 1735689600000 ≤ 0))]
  norm_num
  rw [e2, e3, e4, e5, e6, round2Fp, e7, e8]
  rw [show ((121747 : ℤ) : ℚ) = (121747 : ℚ) from by norm_num, e9]

/-- C6 counterexample: amount 100 over the 30-day window
2025-01-01 .. 2025-01-31 (exclusive) does **not** yield 1217.48 — neither the
exact rational 1217.48 nor the binary64 double nearest to it. -/
theorem C6_counterexample :
    annualizedAmountFromPeriod 100 1735689600000 1738281600000 ≠ 30437 / 25 ∧
    annualizedAmountFromPeriod 100 1735689600000 1738281600000 ≠
      roundDouble (30437 / 25) := by
  refine ⟨?_, ?_⟩
  · rw [c6_scenario_dates]
    norm_num
  · rw [c6_scenario_dates, rd4830]
    norm_num

/-- C6 (amended): duration-based annualization returns 0 for a zero or
negative duration and otherwise `round2(amount * 365.2425 /
max(durationDays, 1/24))` evaluated in binary64, with no further clamping of
sub-day windows; amount 100 over 2025-01-01 .. 2025-01-31 (exclusive) yields
the double 1217.47 (the exact quotient 1217.475 becomes the double product
121747.49999999999 whose `Math.round` is 121747). -/
theorem C6_amended_thm (amount : ℚ) (s e : Int) :
    (e - s ≤ 0 → annualizedAmountFromPeriod amount s e = 0) ∧
    (0 < e - s →
      annualizedAmountFromPeriod amount s e =
        round2Fp (fpDiv (fpMul amount fp365_2425)
          (max (fpDiv ((e - s : Int) : ℚ) 86400000) fp1Over24))) ∧
    annualizedAmountFromPeriod 100 1735689600000 1738281600000 =
      roundDouble (121747 / 100) := by
  refine ⟨?_, ?_, c6_scenario_dates.trans rdFinal.symm⟩
  · intro h
    simp only [annualizedAmountFromPeriod]
    rw [if_pos h]
  · intro h
    simp only [annualizedAmountFromPeriod]
    rw [if_neg (not_le.mpr h)]
    norm_num

/-- C6 witness: the amended theorem applied at a negative-duration input and
at the claim's 30-day scenario. -/
theorem C6_witness :
    annualizedAmountFromPeriod 5 10 3 = 0 ∧
    annualizedAmountFromPeriod 100 1735689600000 1738281600000 =
      roundDouble (121747 / 100) :=
  ⟨(C6_amended_thm 5 10 3).1 (by norm_num),
   (C6_amended_thm 100 1735689600000 1738281600000).2.2⟩

/-! ## Claim C7: idempotence of an exhausted sync -/

/-- A run of `ensureStripeSyncForRange` that reports `synced = true` took the
refresh branch: the persisted store's exhaustion flag records the batch's
`hasMore` and its active range is exactly the clamped request range. -/
theorem ensureSync_synced_store (now : Int) (store : StripeSyncStore)
    (startTs endTs : Int) (force : Bool) (batch : InvoiceBatch)
    (hsync : (ensureStripeSyncForRange now store startTs endTs force batch).synced = true) :
    (ensureStripeSyncForRange now store startTs endTs force batch).store.rangeExhausted
        = !batch.hasMore ∧
    (ensureStripeSyncForRange now store startTs endTs force batch).store.activeRangeStartTs
        = clampHistoryStartTs now startTs ∧
    (ensureStripeSyncForRange now store startTs endTs force batch).store.activeRangeEndTs
        = endTs := by
  by_cases hsame : store.activeRangeStartTs = clampHistoryStartTs now startTs ∧
      store.activeRangeEndTs = endTs <;>
  · simp only [ensureStripeSyncForRange, hsame] at hsync ⊢
    split_ifs at hsync ⊢ <;> simp_all

/-- C7: after a successful (`synced = true`) run whose batch exhausted the
remote data (`hasMore = false`), re-invoking `ensureStripeSyncForRange` with
the identical clamped range and `force` unset performs zero fetch calls,
returns the store unchanged, and reports `synced = false` with reason
`"range-covered"` — regardless of what a fetch would have returned. -/
theorem C7_thm (now1 now2 : Int) (store0 : StripeSyncStore) (startTs endTs : Int)
    (force1 : Bool) (batch1 batch2 : InvoiceBatch)
    (hmore : batch1.hasMore = false)
    (hsync : (ensureStripeSyncForRange now1 store0 startTs endTs force1 batch1).synced = true)
    (hclamp : clampHistoryStartTs now2 startTs = clampHistoryStartTs now1 startTs)
    (hpos : 0 < clampHistoryStartTs now1 startTs) (hend : 0 < endTs) :
    ensureStripeSyncForRange now2
        (ensureStripeSyncForRange now1 store0 startTs endTs force1 batch1).store
        startTs endTs false batch2 =
      { store := (ensureStripeSyncForRange now1 store0 startTs endTs force1 batch1).store,
        synced := false, reason := "range-covered", syncedInvoices := 0, fetchCalls := 0 } := by
  obtain ⟨hex, hargS, hargE⟩ :=
    ensureSync_synced_store now1 store0 startTs endTs force1 batch1 hsync
  rw [hmore] at hex
  set st1 := (ensureStripeSyncForRange now1 store0 startTs endTs force1 batch1).store with hst1
  simp [ensureStripeSyncForRange, hargS, hargE, hex, hclamp, hpos, hend]

/-- C7 witness: a first run over `[500, 900]` at time 1000000 against an
empty store with an exhausted (empty) batch, then a second run over the same
range: no fetch, same store, `"range-covered"` — even though the second
batch dangles more data. -/
theorem C7_witness :
    ensureStripeSyncForRange 1000000
        (ensureStripeSyncForRange 1000000 ⟨0, 0, 0, 0, 0, none, false, []⟩ 500 900 false
          ⟨[], 0, false, none⟩).store 500 900 false ⟨[], 3, true, some "cur"⟩ =
      { store := (ensureStripeSyncForRange 1000000 ⟨0, 0, 0, 0, 0, none, false, []⟩ 500 900
          false ⟨[], 0, false, none⟩).store,
        synced := false, reason := "range-covered", syncedInvoices := 0, fetchCalls := 0 } :=
  C7_thm 1000000 1000000 ⟨0, 0, 0, 0, 0, none, false, []⟩ 500 900 false
    ⟨[], 0, false, none⟩ ⟨[], 3, true, some "cur"⟩ rfl rfl rfl (by decide) (by decide)

/-! ## Claim C8: the report's sync-triggering decision -/

def c8Item : SyncedStripeLineItem :=
  { key := "in1:li1", invoiceId := "in1", invoiceCreatedTs := 10, customerId := "cus"
    customerName := "Cust", lineItemId := "li1", lineItemDescription := ""
    amountMinor := 100, currency := "usd", quantity := 1
    periodStartTs := 100, periodEndTs := 200 }

/-- A cache holding one item that merely overlaps the requested range, with
`rangeExhausted = false`: it does not cover any positive range. -/
def c8Store : StripeSyncStore :=
  { updatedAtTs := 0, lastSyncStartTs := 0, lastSyncEndTs := 0
    activeRangeStartTs := 0, activeRangeEndTs := 0, nextInvoiceCursor := none
    rangeExhausted := false, itemsByKey := [("in1:li1", c8Item)] }

/-- C8 counterexample: with auto-sync enabled and a cache that does **not**
cover the requested range `[50, 500]` but happens to hold one overlapping
item, `generateStripeReport` performs no sync call at all before computing
rows — the read was nonempty, and that is the only trigger it checks. -/
theorem C8_counterexample :
    generateStripeReportSyncCalls c8Store 50 500 true = 0 ∧
    ¬ storeCoversRange c8Store 50 500 := by
  constructor
  · rfl
  · decide

/-- C8 (amended): `generateStripeReport` performs at most one
`ensureStripeSyncForRange` call, and performs it exactly when the cached
read for the range returned no items and `STRIPE_REPORT_AUTO_SYNC` is
enabled; it never tests range coverage itself. -/
theorem C8_amended_thm (store : StripeSyncStore) (startTs endTs : Int) (autoSync : Bool) :
    generateStripeReportSyncCalls store startTs endTs autoSync ≤ 1 ∧
    (generateStripeReportSyncCalls store startTs endTs autoSync = 1 ↔
      (getSyncedStripeLineItemsForRange store startTs endTs).length = 0 ∧
        autoSync = true) := by
  simp only [generateStripeReportSyncCalls]
  by_cases h : (getSyncedStripeLineItemsForRange store startTs endTs).length = 0 ∧
      autoSync = true
  · rw [if_pos h]
    simp [h]
  · rw [if_neg h]
    refine ⟨by omega, ?_, fun hc => absurd hc h⟩
    intro h01
    exact absurd h01 (by omega)
